import Mathlib

/-!
Verification development for the jazelle_reader streaming decoder.

The Python sources are shallowly embedded: the byte source backing a stream
is a `List Nat` (one entry per byte), stream objects become explicit state
records, fallible operations return `Except`, and machine integers are
modelled with `Nat`/`Int` plus explicit `% 2^w` where overflow matters.
-/

deriving instance DecidableEq for Except

namespace Jazelle

/-- Error kinds surfaced by the decoder.  They model the Python exception
kinds: EOFError, the two ValueError sites of the physical reader, the
IOSYNCH1/IOSYNCH2 IOErrors, the three offset-consistency ValueErrors, the
AssertionError on Monte-Carlo content, the insufficient-buffer ValueError of
the bank decoders, and errors raised inside numpy.  `fuelOut` is an artifact
of bounding the Python while-loops by a fuel parameter; it is proved
unreachable for the fuel the wrappers pass. -/
inductive JErr where
  | eof
  | valueError
  | sync1
  | sync2
  | offsetMismatch
  | assertFail
  | insufficient
  | numpyError
  | fuelOut
deriving DecidableEq

/-- Stream state shared by the embedded reader classes.  `src` is the whole
underlying byte file, `pos` the file cursor of the wrapped binary stream,
`n_bytes` and `reclen` the bookkeeping fields of PhysicalRecordInputStream,
and `to_be_continued` the one boolean added by LogicalRecordInputStream
(inert for the purely physical operations). -/
structure St where
  src : List Nat
  pos : Nat
  n_bytes : Nat
  reclen : Nat
  to_be_continued : Bool
deriving DecidableEq

/-- Bytes delivered by `self._in.read(k)`: at most `k` bytes starting at the
file cursor; fewer are returned when the file ends early. -/
def fileRead (st : St) (k : Nat) : List Nat :=
  (st.src.drop st.pos).take k

/-- PhysicalRecordInputStream._read_short: read two bytes and decode a
little-endian unsigned 16-bit value, counting them into `n_bytes`. -/
def readShort (st : St) : Except JErr (Nat × St) :=
  let data := fileRead st 2
  if data.length < 2 then .error .eof
  else .ok (data.getD 0 0 + 256 * data.getD 1 0,
    { st with pos := st.pos + 2, n_bytes := st.n_bytes + 2 })

/-- PhysicalRecordInputStream._read_header: reset `n_bytes`, read the
2-byte record length, then read and discard the 2-byte reserved word.
The negative-length check of the source is dead code because the value is
unpacked unsigned. -/
def readHeaderP (st : St) : Except JErr St :=
  match readShort { st with n_bytes := 0 } with
  | .error e => .error e
  | .ok (len, st1) =>
    match readShort { st1 with reclen := len } with
    | .error e => .error e
    | .ok (_, st2) => .ok st2

/-- PhysicalRecordInputStream.next_physical_record: seek over the unread
tail of the current record, then read the next physical header.  This is
the version whose `_read_header` is the physical one. -/
def nextPhysicalP (st : St) : Except JErr St :=
  let remaining : Int := (st.reclen : Int) - (st.n_bytes : Int)
  readHeaderP (if 0 < remaining then { st with pos := st.pos + remaining.toNat } else st)

/-- Loop body of PhysicalRecordInputStream.read from
src/stream/physical_stream.py (the boundary-crossing version), bounded by
fuel.  One fuel unit corresponds to one iteration of the Python while loop.
When the current record is exhausted the next header is consumed and the
iteration reads zero bytes (the Python code computes `to_read` from the
stale `remaining`); a negative `remaining` makes the length test
`len(data) != to_read` fail, hence EOFError. -/
def readFuelP (fuel : Nat) (st : St) (size : Nat) :
    Except JErr (List Nat × St) :=
  match fuel with
  | 0 => .error .fuelOut
  | fuel + 1 =>
    if size = 0 then .ok ([], st)
    else
      let remaining : Int := (st.reclen : Int) - (st.n_bytes : Int)
      if remaining = 0 then
        match nextPhysicalP st with
        | .error e => .error e
        | .ok st' => readFuelP fuel st' size
      else if remaining < 0 then .error .eof
      else
        let to_read := min size remaining.toNat
        let data := fileRead st to_read
        if data.length ≠ to_read then .error .eof
        else
          match readFuelP fuel
              { st with pos := st.pos + to_read, n_bytes := st.n_bytes + to_read }
              (size - to_read) with
          | .error e => .error e
          | .ok (rest, st') => .ok (data ++ rest, st')

/-- PhysicalRecordInputStream.read (boundary-crossing version): the loop
runs at most once per byte of the underlying file, so this fuel bound is
never reached. -/
def readP (st : St) (size : Nat) : Except JErr (List Nat × St) :=
  readFuelP (st.src.length + 1) st size

theorem fileRead_length (st : St) (k : Nat) :
    (fileRead st k).length = min k (st.src.length - st.pos) := by
  simp [fileRead]

theorem readShort_ok (st : St) (v : Nat) (st' : St)
    (h : readShort st = .ok (v, st')) :
    st'.src = st.src ∧ st'.pos = st.pos + 2 ∧ st.pos + 2 ≤ st.src.length ∧
      st'.reclen = st.reclen ∧ st'.n_bytes = st.n_bytes + 2 ∧
      st'.to_be_continued = st.to_be_continued := by
  unfold readShort at h
  by_cases hl : (fileRead st 2).length < 2
  · simp [hl] at h
  · simp only [hl, if_false, Except.ok.injEq, Prod.mk.injEq] at h
    obtain ⟨-, hst⟩ := h
    subst hst
    refine ⟨rfl, rfl, ?_, rfl, rfl, rfl⟩
    have := fileRead_length st 2
    omega

theorem readHeaderP_ok (st st' : St) (h : readHeaderP st = .ok st') :
    st'.src = st.src ∧ st'.pos = st.pos + 4 ∧ st.pos + 4 ≤ st.src.length ∧
      st'.n_bytes = 4 ∧ st'.to_be_continued = st.to_be_continued := by
  unfold readHeaderP at h
  cases h1 : readShort { st with n_bytes := 0 } with
  | error e => rw [h1] at h; cases h
  | ok p1 =>
    obtain ⟨len, st1⟩ := p1
    rw [h1] at h
    dsimp only at h
    cases h2 : readShort { st1 with reclen := len } with
    | error e => rw [h2] at h; cases h
    | ok p2 =>
      obtain ⟨v2, st2⟩ := p2
      rw [h2] at h
      dsimp only at h
      cases h
      have a1 := readShort_ok _ _ _ h1
      have a2 := readShort_ok _ _ _ h2
      dsimp only at a1 a2
      obtain ⟨e1, p1', b1, -, n1, t1⟩ := a1
      obtain ⟨e2, p2', b2, -, n2, t2⟩ := a2
      rw [e1] at e2 b2
      refine ⟨e2, by omega, by omega, by omega, by rw [t2, t1]⟩

theorem nextPhysicalP_ok (st st' : St) (h : nextPhysicalP st = .ok st') :
    st'.src = st.src ∧ st.pos + 4 ≤ st'.pos ∧ st'.pos ≤ st.src.length ∧
      st'.n_bytes = 4 ∧ st'.to_be_continued = st.to_be_continued := by
  unfold nextPhysicalP at h
  set mid := if 0 < (st.reclen : Int) - (st.n_bytes : Int) then
      { st with pos := st.pos + ((st.reclen : Int) - (st.n_bytes : Int)).toNat }
    else st with hmid
  have hsrc : mid.src = st.src ∧ st.pos ≤ mid.pos ∧
      mid.to_be_continued = st.to_be_continued := by
    rw [hmid]; split <;> simp
  obtain ⟨hs, hp, ht⟩ := hsrc
  have a := readHeaderP_ok mid st' h
  obtain ⟨e1, p1, b1, n1, t1⟩ := a
  rw [hs] at e1 b1
  exact ⟨e1, by omega, by omega, n1, by rw [t1, ht]⟩

theorem readShort_error (st : St) (e : JErr) (h : readShort st = .error e) :
    e = .eof := by
  unfold readShort at h
  by_cases hl : (fileRead st 2).length < 2
  · simp only [hl, if_true, Except.error.injEq] at h; exact h.symm
  · simp [hl] at h

theorem readHeaderP_error (st : St) (e : JErr) (h : readHeaderP st = .error e) :
    e = .eof := by
  unfold readHeaderP at h
  cases h1 : readShort { st with n_bytes := 0 } with
  | error e1 =>
    rw [h1] at h; dsimp only at h
    cases h; exact readShort_error _ _ h1
  | ok p1 =>
    obtain ⟨len, st1⟩ := p1
    rw [h1] at h; dsimp only at h
    cases h2 : readShort { st1 with reclen := len } with
    | error e2 =>
      rw [h2] at h; dsimp only at h
      cases h; exact readShort_error _ _ h2
    | ok p2 => obtain ⟨v2, st2⟩ := p2; rw [h2] at h; dsimp only at h; cases h

theorem nextPhysicalP_error (st : St) (e : JErr)
    (h : nextPhysicalP st = .error e) : e = .eof := by
  unfold nextPhysicalP at h
  exact readHeaderP_error _ _ h

theorem readFuelP_length : ∀ (fuel : Nat) (st : St) (size : Nat)
    (d : List Nat) (st' : St),
    readFuelP fuel st size = .ok (d, st') → d.length = size := by
  intro fuel
  induction fuel with
  | zero => intro st size d st' h; simp [readFuelP] at h
  | succ fuel ih =>
    intro st size d st' h
    rw [readFuelP] at h
    by_cases h0 : size = 0
    · rw [if_pos h0] at h
      simp only [Except.ok.injEq, Prod.mk.injEq] at h
      rw [← h.1]
      simp [h0]
    · rw [if_neg h0] at h
      by_cases h1 : ((st.reclen : Int) - (st.n_bytes : Int)) = 0
      · rw [if_pos h1] at h
        cases hn : nextPhysicalP st with
        | error e => rw [hn] at h; cases h
        | ok st1 => rw [hn] at h; dsimp only at h; exact ih _ _ _ _ h
      · rw [if_neg h1] at h
        by_cases h2 : ((st.reclen : Int) - (st.n_bytes : Int)) < 0
        · rw [if_pos h2] at h; cases h
        · rw [if_neg h2] at h
          dsimp only at h
          by_cases h3 : (fileRead st
              (min size ((st.reclen : Int) - (st.n_bytes : Int)).toNat)).length ≠
              min size ((st.reclen : Int) - (st.n_bytes : Int)).toNat
          · rw [if_pos h3] at h; cases h
          · rw [if_neg h3] at h
            push_neg at h3
            cases hr : readFuelP fuel
                { st with
                  pos := st.pos +
                    min size ((st.reclen : Int) - (st.n_bytes : Int)).toNat,
                  n_bytes := st.n_bytes +
                    min size ((st.reclen : Int) - (st.n_bytes : Int)).toNat }
                (size - min size ((st.reclen : Int) - (st.n_bytes : Int)).toNat) with
            | error e => rw [hr] at h; cases h
            | ok p =>
              obtain ⟨rest, st1⟩ := p
              rw [hr] at h; dsimp only at h
              have hrest := ih _ _ _ _ hr
              simp only [Except.ok.injEq, Prod.mk.injEq] at h
              rw [← h.1]
              rw [List.length_append, h3, hrest]
              omega

theorem readFuelP_error : ∀ (fuel : Nat) (st : St) (size : Nat) (e : JErr),
    readFuelP fuel st size = .error e → e = .eof ∨ e = .fuelOut := by
  intro fuel
  induction fuel with
  | zero =>
    intro st size e h
    rw [readFuelP] at h
    cases h
    exact Or.inr rfl
  | succ fuel ih =>
    intro st size e h
    rw [readFuelP] at h
    by_cases h0 : size = 0
    · rw [if_pos h0] at h; cases h
    · rw [if_neg h0] at h
      by_cases h1 : ((st.reclen : Int) - (st.n_bytes : Int)) = 0
      · rw [if_pos h1] at h
        cases hn : nextPhysicalP st with
        | error e1 =>
          rw [hn] at h; dsimp only at h; cases h
          exact Or.inl (nextPhysicalP_error _ _ hn)
        | ok st1 => rw [hn] at h; dsimp only at h; exact ih _ _ _ h
      · rw [if_neg h1] at h
        by_cases h2 : ((st.reclen : Int) - (st.n_bytes : Int)) < 0
        · rw [if_pos h2] at h; cases h; exact Or.inl rfl
        · rw [if_neg h2] at h
          dsimp only at h
          by_cases h3 : (fileRead st
              (min size ((st.reclen : Int) - (st.n_bytes : Int)).toNat)).length ≠
              min size ((st.reclen : Int) - (st.n_bytes : Int)).toNat
          · rw [if_pos h3] at h; cases h; exact Or.inl rfl
          · rw [if_neg h3] at h
            cases hr : readFuelP fuel
                { st with
                  pos := st.pos +
                    min size ((st.reclen : Int) - (st.n_bytes : Int)).toNat,
                  n_bytes := st.n_bytes +
                    min size ((st.reclen : Int) - (st.n_bytes : Int)).toNat }
                (size - min size ((st.reclen : Int) - (st.n_bytes : Int)).toNat) with
            | error e1 =>
              rw [hr] at h; dsimp only at h; cases h
              exact ih _ _ _ hr
            | ok p => obtain ⟨rest, st1⟩ := p; rw [hr] at h; dsimp only at h; cases h

theorem readFuelP_no_fuelOut : ∀ (fuel : Nat) (st : St) (size : Nat),
    0 < fuel → st.src.length < fuel + st.pos →
    readFuelP fuel st size ≠ .error .fuelOut := by
  intro fuel
  induction fuel with
  | zero => intro st size hf hb; omega
  | succ fuel ih =>
    intro st size hf hb h
    rw [readFuelP] at h
    by_cases h0 : size = 0
    · rw [if_pos h0] at h; cases h
    · rw [if_neg h0] at h
      by_cases h1 : ((st.reclen : Int) - (st.n_bytes : Int)) = 0
      · rw [if_pos h1] at h
        cases hn : nextPhysicalP st with
        | error e1 =>
          rw [hn] at h; dsimp only at h; cases h
          exact JErr.noConfusion (nextPhysicalP_error _ _ hn)
        | ok st1 =>
          rw [hn] at h; dsimp only at h
          obtain ⟨hsrc, hpos, hle, -, -⟩ := nextPhysicalP_ok _ _ hn
          refine absurd h (ih st1 size ?_ ?_)
          · omega
          · rw [hsrc]
            omega
      · rw [if_neg h1] at h
        by_cases h2 : ((st.reclen : Int) - (st.n_bytes : Int)) < 0
        · rw [if_pos h2] at h; cases h
        · rw [if_neg h2] at h
          dsimp only at h
          by_cases h3 : (fileRead st
              (min size ((st.reclen : Int) - (st.n_bytes : Int)).toNat)).length ≠
              min size ((st.reclen : Int) - (st.n_bytes : Int)).toNat
          · rw [if_pos h3] at h; cases h
          · rw [if_neg h3] at h
            push_neg at h3
            rw [fileRead_length] at h3
            have htr : 1 ≤ min size ((st.reclen : Int) - (st.n_bytes : Int)).toNat := by
              omega
            have hbound : st.pos +
                min size ((st.reclen : Int) - (st.n_bytes : Int)).toNat ≤
                st.src.length := by
              omega
            cases hr : readFuelP fuel
                { st with
                  pos := st.pos +
                    min size ((st.reclen : Int) - (st.n_bytes : Int)).toNat,
                  n_bytes := st.n_bytes +
                    min size ((st.reclen : Int) - (st.n_bytes : Int)).toNat }
                (size - min size ((st.reclen : Int) - (st.n_bytes : Int)).toNat) with
            | error e1 =>
              rw [hr] at h; dsimp only at h; cases h
              refine ih _ _ ?_ ?_ hr
              · omega
              · dsimp only
                omega
            | ok p => obtain ⟨rest, st1⟩ := p; rw [hr] at h; dsimp only at h; cases h

theorem land_mask (v n k : Nat) :
    v &&& ((2 ^ n - 1) <<< k) = v / 2 ^ k % 2 ^ n * 2 ^ k := by
  apply Nat.eq_of_testBit_eq
  intro i
  have hr : v / 2 ^ k % 2 ^ n * 2 ^ k = 2 ^ k * (v / 2 ^ k % 2 ^ n) + 0 := by
    ring
  rw [hr, Nat.testBit_mul_pow_two_add _ (Nat.pos_pow_of_pos k (by omega)),
    Nat.testBit_and, Nat.testBit_shiftLeft, Nat.testBit_two_pow_sub_one]
  by_cases hki : k ≤ i
  · rw [if_neg (by omega)]
    rw [Nat.testBit_mod_two_pow]
    rw [← Nat.shiftRight_eq_div_pow, Nat.testBit_shiftRight]
    have he : k + (i - k) = i := by omega
    rw [he]
    simp only [ge_iff_le, hki]
    cases v.testBit i <;> cases hdec : decide (i - k < n) <;> simp
  · rw [if_pos (by omega)]
    have : decide (i ≥ k) = false := by
      simp [hki]
    simp [this, Nat.zero_testBit]

theorem testBit_zero_eq (v : Nat) : v.testBit 0 = decide (v % 2 = 1) := by
  simp [Nat.testBit_to_div_mod]

theorem testBit_one_eq (v : Nat) : v.testBit 1 = decide (v / 2 % 2 = 1) := by
  simp [Nat.testBit_to_div_mod]

theorem fileRead_getD (st : St) (k i : Nat) (hik : i < k)
    (hb : st.pos + k ≤ st.src.length) :
    (fileRead st k).getD i 0 = st.src.getD (st.pos + i) 0 := by
  have h1 : i < (fileRead st k).length := by
    rw [fileRead_length]; omega
  have h2 : st.pos + i < st.src.length := by omega
  rw [List.getD_eq_getElem _ _ h1, List.getD_eq_getElem _ _ h2]
  simp only [fileRead]
  rw [List.getElem_take, List.getElem_drop]

theorem readShort_eval (st : St) (h : st.pos + 2 ≤ st.src.length) :
    readShort st = .ok (st.src.getD st.pos 0 + 256 * st.src.getD (st.pos + 1) 0,
      { st with pos := st.pos + 2, n_bytes := st.n_bytes + 2 }) := by
  unfold readShort
  have hlen : (fileRead st 2).length = 2 := by
    rw [fileRead_length]; omega
  rw [if_neg (by omega)]
  rw [fileRead_getD st 2 0 (by omega) h, fileRead_getD st 2 1 (by omega) h]
  rw [Nat.add_zero]

theorem readHeaderP_eval (st : St) (h : st.pos + 4 ≤ st.src.length) :
    readHeaderP st = .ok { st with
      pos := st.pos + 4
      n_bytes := 4
      reclen := st.src.getD st.pos 0 + 256 * st.src.getD (st.pos + 1) 0 } := by
  unfold readHeaderP
  rw [readShort_eval { st with n_bytes := 0 } (by dsimp only; omega)]
  dsimp only
  rw [readShort_eval _ (by dsimp only; omega)]

/-- LogicalRecordInputStream._read_header: run the physical header read,
then read the 4-byte logical header (length, flags) and enforce the two
synchronization invariants; finally latch the continuation bit. -/
def readHeaderL (st : St) : Except JErr St :=
  match readHeaderP st with
  | .error e => .error e
  | .ok st1 =>
    match readShort st1 with
    | .error e => .error e
    | .ok (_lrlen, st2) =>
      match readShort st2 with
      | .error e => .error e
      | .ok (lrcnt, st3) =>
        if lrcnt &&& 0xFFFFFFFC ≠ 0 then .error .sync1
        else
          let continued : Bool := decide (lrcnt &&& 2 ≠ 0)
          if continued ≠ st3.to_be_continued then .error .sync2
          else .ok { st3 with to_be_continued := decide (lrcnt &&& 1 ≠ 0) }

/-- next_physical_record as dispatched from the logical reader: the
inherited seek logic followed by the overriding _read_header. -/
def nextPhysicalL (st : St) : Except JErr St :=
  let remaining : Int := (st.reclen : Int) - (st.n_bytes : Int)
  readHeaderL (if 0 < remaining then { st with pos := st.pos + remaining.toNat } else st)

/-- The boundary-crossing read as it behaves on a LogicalRecordInputStream:
identical loop to readFuelP, but record advancement dispatches to the
logical _read_header. -/
def readFuelL (fuel : Nat) (st : St) (size : Nat) :
    Except JErr (List Nat × St) :=
  match fuel with
  | 0 => .error .fuelOut
  | fuel + 1 =>
    if size = 0 then .ok ([], st)
    else
      let remaining : Int := (st.reclen : Int) - (st.n_bytes : Int)
      if remaining = 0 then
        match nextPhysicalL st with
        | .error e => .error e
        | .ok st' => readFuelL fuel st' size
      else if remaining < 0 then .error .eof
      else
        let to_read := min size remaining.toNat
        let data := fileRead st to_read
        if data.length ≠ to_read then .error .eof
        else
          match readFuelL fuel
              { st with pos := st.pos + to_read, n_bytes := st.n_bytes + to_read }
              (size - to_read) with
          | .error e => .error e
          | .ok (rest, st') => .ok (data ++ rest, st')

/-- Logical-reader read with the always-sufficient fuel bound. -/
def readL (st : St) (size : Nat) : Except JErr (List Nat × St) :=
  readFuelL (st.src.length + 1) st size

/-- LogicalRecordInputStream.next_logical_record: skip physical records
while the current logical record continues, then advance once more. -/
def nextLogicalFuel : Nat → St → Except JErr St
  | 0, _ => .error .fuelOut
  | fuel + 1, st =>
    if st.to_be_continued then
      match nextPhysicalL st with
      | .error e => .error e
      | .ok st' => nextLogicalFuel fuel st'
    else nextPhysicalL st

/-- next_logical_record with the always-sufficient fuel bound. -/
def nextLogicalRecord (st : St) : Except JErr St :=
  nextLogicalFuel (st.src.length + 1) st

theorem land_two (v : Nat) : v &&& 2 = v / 2 % 2 * 2 := by
  have h := land_mask v 1 1
  rw [Nat.shiftLeft_eq] at h
  norm_num at h
  exact h

theorem land_one (v : Nat) : v &&& 1 = v % 2 := by
  norm_num [Nat.and_one_is_mod]

theorem decide_land_two (v : Nat) :
    decide (v &&& 2 ≠ 0) = v.testBit 1 := by
  rw [land_two, testBit_one_eq]
  by_cases hm : v / 2 % 2 = 1
  · simp [hm]
  · have : v / 2 % 2 = 0 := by omega
    simp [this]

theorem decide_land_one (v : Nat) :
    decide (v &&& 1 ≠ 0) = v.testBit 0 := by
  rw [land_one, testBit_zero_eq]
  by_cases hm : v % 2 = 1
  · simp [hm]
  · have : v % 2 = 0 := by omega
    simp [this]

theorem land_high_mask (v : Nat) (hv : v < 65536) :
    (v &&& 0xFFFFFFFC = 0) ↔ v < 4 := by
  have h := land_mask v 30 2
  rw [Nat.shiftLeft_eq] at h
  norm_num at h
  rw [h]
  omega

/-- C3: on every logical header read, after the 4-byte physical header,
the 2-byte logical length and the 2-byte flags word are consumed; the read
fails with SyncFault1 exactly when the flags word has a bit set outside the
low two bits, otherwise it fails with SyncFault2 exactly when flags bit 1
disagrees with the expect_continuation state, and otherwise the new
expect_continuation is flags bit 0. -/
theorem logicalHeader_spec (st : St) (hb : ∀ b ∈ st.src, b < 256)
    (h : st.pos + 8 ≤ st.src.length) :
    (readHeaderL st = .error .sync1 ↔
      4 ≤ st.src.getD (st.pos + 6) 0 + 256 * st.src.getD (st.pos + 7) 0) ∧
    (st.src.getD (st.pos + 6) 0 + 256 * st.src.getD (st.pos + 7) 0 < 4 →
      (readHeaderL st = .error .sync2 ↔
        (st.src.getD (st.pos + 6) 0 +
          256 * st.src.getD (st.pos + 7) 0).testBit 1 ≠ st.to_be_continued)) ∧
    (∀ st', readHeaderL st = .ok st' →
      st'.to_be_continued =
        (st.src.getD (st.pos + 6) 0 +
          256 * st.src.getD (st.pos + 7) 0).testBit 0) := by
  set flags := st.src.getD (st.pos + 6) 0 + 256 * st.src.getD (st.pos + 7) 0
    with hflags
  have hb6 : st.src.getD (st.pos + 6) 0 < 256 := by
    have h1 : st.pos + 6 < st.src.length := by omega
    rw [List.getD_eq_getElem _ _ h1]
    exact hb _ (List.getElem_mem h1)
  have hb7 : st.src.getD (st.pos + 7) 0 < 256 := by
    have h1 : st.pos + 7 < st.src.length := by omega
    rw [List.getD_eq_getElem _ _ h1]
    exact hb _ (List.getElem_mem h1)
  have hfl : flags < 65536 := by omega
  have hred : readHeaderL st =
      (if flags &&& 0xFFFFFFFC ≠ 0 then .error .sync1
      else if (decide (flags &&& 2 ≠ 0) ≠ st.to_be_continued) then
        .error .sync2
      else .ok { st with
        pos := st.pos + 8
        n_bytes := 8
        reclen := st.src.getD st.pos 0 + 256 * st.src.getD (st.pos + 1) 0
        to_be_continued := decide (flags &&& 1 ≠ 0) }) := by
    unfold readHeaderL
    rw [readHeaderP_eval st (by omega)]
    dsimp only
    rw [readShort_eval _ (by dsimp only; omega)]
    dsimp only
    rw [readShort_eval _ (by dsimp only; omega)]
  rw [hred]
  have hbit : decide (flags &&& 2 ≠ 0) = flags.testBit 1 := decide_land_two flags
  by_cases hs1 : flags &&& 0xFFFFFFFC ≠ 0
  · rw [if_pos hs1]
    have h4 : 4 ≤ flags := by
      rcases Nat.lt_or_ge flags 4 with h' | h'
      · exact absurd ((land_high_mask flags hfl).mpr h') hs1
      · exact h'
    refine ⟨⟨fun _ => h4, fun _ => rfl⟩, ?_, ?_⟩
    · intro hlt
      omega
    · intro st' hst'
      simp at hst'
  · rw [if_neg hs1]
    push_neg at hs1
    have h4 : flags < 4 := (land_high_mask flags hfl).mp hs1
    by_cases hs2 : decide (flags &&& 2 ≠ 0) ≠ st.to_be_continued
    · rw [if_pos hs2]
      rw [hbit] at hs2
      refine ⟨⟨fun hc => ?_, fun hge => ?_⟩, ?_, ?_⟩
      · simp at hc
      · omega
      · intro hlt
        exact ⟨fun _ => hs2, fun _ => rfl⟩
      · intro st' hst'
        simp at hst'
    · rw [if_neg hs2]
      push_neg at hs2
      rw [hbit] at hs2
      refine ⟨⟨fun hc => ?_, fun hge => ?_⟩, ?_, ?_⟩
      · simp at hc
      · omega
      · intro hlt
        refine ⟨fun hc => ?_, fun hne => absurd hs2 hne⟩
        simp at hc
      · intro st' hst'
        simp only [Except.ok.injEq] at hst'
        rw [← hst']
        dsimp only
        rw [decide_land_one, testBit_zero_eq]

theorem getD_drop (l : List Nat) (n i : Nat) :
    (l.drop n).getD i 0 = l.getD (n + i) 0 := by
  simp [List.getD_eq_getElem?_getD, List.getElem?_drop]

/-- One physical record of a synthetic multi-fragment file: 2-byte length
(covering the 4 header bytes, the 4 logical-header bytes and the payload),
2-byte reserved word, 2-byte logical length (zero here), 2-byte flags word,
then the payload bytes. -/
def frag (flags : Nat) (p : List Nat) : List Nat :=
  [(8 + p.length) % 256, (8 + p.length) / 256, 0, 0, 0, 0, flags, 0] ++ p

theorem frag_length (flags : Nat) (p : List Nat) :
    (frag flags p).length = 8 + p.length := by
  simp [frag]
  omega

theorem readHeaderL_frag (st : St) (flags : Nat) (p rest : List Nat)
    (hdrop : st.src.drop st.pos = frag flags p ++ rest)
    (hn : p.length ≤ 65527) (hf : flags < 4)
    (hcont : decide (flags &&& 2 ≠ 0) = st.to_be_continued) :
    readHeaderL st = .ok { st with
      pos := st.pos + 8
      n_bytes := 8
      reclen := 8 + p.length
      to_be_continued := decide (flags &&& 1 ≠ 0) } := by
  have hdl : st.src.length - st.pos = 8 + p.length + rest.length := by
    have hlen := congrArg List.length hdrop
    rw [List.length_drop] at hlen
    rw [hlen]
    simp [frag]
    omega
  have hple : st.pos ≤ st.src.length := by
    by_contra hcon
    push_neg at hcon
    have hnil : st.src.drop st.pos = [] := List.drop_eq_nil_of_le (by omega)
    rw [hnil] at hdrop
    have := congrArg List.length hdrop
    simp [frag] at this
  have h8 : st.pos + 8 ≤ st.src.length := by omega
  have hb0 : st.src.getD st.pos 0 = (8 + p.length) % 256 := by
    have := getD_drop st.src st.pos 0
    rw [Nat.add_zero] at this
    rw [← this, hdrop]
    simp [frag]
  have hb1 : st.src.getD (st.pos + 1) 0 = (8 + p.length) / 256 := by
    rw [← getD_drop st.src st.pos 1, hdrop]
    simp [frag]
  have hb6 : st.src.getD (st.pos + 6) 0 = flags := by
    rw [← getD_drop st.src st.pos 6, hdrop]
    simp [frag]
  have hb7 : st.src.getD (st.pos + 7) 0 = 0 := by
    rw [← getD_drop st.src st.pos 7, hdrop]
    simp [frag]
  unfold readHeaderL
  rw [readHeaderP_eval st (by omega)]
  dsimp only
  rw [readShort_eval _ (by dsimp only; omega)]
  dsimp only
  rw [readShort_eval _ (by dsimp only; omega)]
  dsimp only
  have e6 : st.pos + 4 + 2 = st.pos + 6 := by omega
  have e7 : st.pos + 4 + 2 + 1 = st.pos + 7 := by omega
  rw [e6, e7, hb6, hb7]
  rw [(show flags + 256 * 0 = flags by ring)]
  have hfl : flags < 65536 := by omega
  rw [if_neg (by simp only [ne_eq, not_not]; exact (land_high_mask flags hfl).mpr hf)]
  rw [if_neg (not_ne_iff.mpr hcont)]
  simp only [Except.ok.injEq, St.mk.injEq, true_and, and_true]
  omega

theorem nextPhysicalL_frag (st : St) (flags : Nat) (p rest : List Nat)
    (hexh : st.n_bytes = st.reclen)
    (hdrop : st.src.drop st.pos = frag flags p ++ rest)
    (hn : p.length ≤ 65527) (hf : flags < 4)
    (hcont : decide (flags &&& 2 ≠ 0) = st.to_be_continued) :
    nextPhysicalL st = .ok { st with
      pos := st.pos + 8
      n_bytes := 8
      reclen := 8 + p.length
      to_be_continued := decide (flags &&& 1 ≠ 0) } := by
  show readHeaderL (if 0 < (st.reclen : Int) - (st.n_bytes : Int) then
      { st with pos := st.pos + ((st.reclen : Int) - (st.n_bytes : Int)).toNat }
    else st) = _
  rw [if_neg (by rw [hexh]; omega)]
  exact readHeaderL_frag st flags p rest hdrop hn hf hcont

theorem readFuelL_zero (fuel : Nat) (st : St) :
    readFuelL (fuel + 1) st 0 = .ok ([], st) := by
  rw [readFuelL]
  rw [if_pos rfl]

theorem readFuelL_roll (fuel : Nat) (st : St) (size : Nat) (hsz : size ≠ 0)
    (hexh : st.n_bytes = st.reclen) :
    readFuelL (fuel + 1) st size =
      match nextPhysicalL st with
      | .error e => .error e
      | .ok st' => readFuelL fuel st' size := by
  simp only [readFuelL]
  rw [if_neg hsz, if_pos (by rw [hexh]; ring)]

theorem readFuelL_chunk (fuel : Nat) (st : St) (k S : Nat) (hk : 1 ≤ k)
    (hrec : st.reclen = st.n_bytes + k)
    (hdata : st.pos + k ≤ st.src.length) :
    readFuelL (fuel + 1) st (k + S) =
      match readFuelL fuel
          { st with pos := st.pos + k, n_bytes := st.n_bytes + k } S with
      | .error e => .error e
      | .ok (rest, st') => .ok (fileRead st k ++ rest, st') := by
  simp only [readFuelL]
  rw [if_neg (by omega)]
  have hrem : (st.reclen : Int) - (st.n_bytes : Int) = (k : Int) := by
    rw [hrec]
    push_cast
    ring
  rw [hrem]
  rw [if_neg (by omega), if_neg (by omega)]
  have htoNat : ((k : Int)).toNat = k := Int.toNat_natCast k
  rw [htoNat]
  have hmin : min (k + S) k = k := by omega
  rw [hmin]
  have hlen : (fileRead st k).length = k := by
    rw [fileRead_length]
    omega
  rw [if_neg (by omega)]
  have hS : k + S - k = S := by omega
  rw [hS]

theorem drop_frag_eight (flags : Nat) (p rest : List Nat) :
    (frag flags p ++ rest).drop 8 = p ++ rest := by
  rw [frag, List.append_assoc]
  exact List.drop_left' (by simp)

/-- C3 witness: a concrete eight-byte fragment header with flags word 1 is
accepted when no continuation is expected, and it sets expect_continuation
from bit 0 of the flags. -/
theorem logicalHeader_spec_witness :
    (⟨[12, 0, 0, 0, 4, 0, 1, 0], 8, 8, 12, true⟩ : St).to_be_continued =
      (([12, 0, 0, 0, 4, 0, 1, 0] : List Nat).getD (0 + 6) 0 +
        256 * ([12, 0, 0, 0, 4, 0, 1, 0] : List Nat).getD (0 + 7) 0).testBit 0 :=
  (logicalHeader_spec ⟨[12, 0, 0, 0, 4, 0, 1, 0], 0, 0, 0, false⟩
    (by decide) (by decide)).2.2
    ⟨[12, 0, 0, 0, 4, 0, 1, 0], 8, 8, 12, true⟩ (by decide)

/-- C4: for every file in which one logical record spans three physical
records with continuation-flag pattern (to-be-continued, to-be-continued,
final) and nonempty payloads, a single next_logical_record call followed by
reading the full payload returns the concatenation of the three physical
payloads in order, with no header bytes included. -/
theorem logicalContinuation_spec (p1 p2 p3 : List Nat)
    (h1 : 1 ≤ p1.length) (h1b : p1.length ≤ 65527)
    (h2 : 1 ≤ p2.length) (h2b : p2.length ≤ 65527)
    (h3 : 1 ≤ p3.length) (h3b : p3.length ≤ 65527) :
    ∃ stF : St,
      (nextLogicalRecord ⟨frag 1 p1 ++ (frag 3 p2 ++ frag 2 p3), 0, 4, 4, false⟩ >>=
        fun st1 => readL st1 (p1.length + (p2.length + p3.length))) =
      .ok (p1 ++ (p2 ++ p3), stF) := by
  set q : List Nat := frag 1 p1 ++ (frag 3 p2 ++ frag 2 p3) with hq
  have hqlen : q.length = 24 + (p1.length + (p2.length + p3.length)) := by
    rw [hq]
    simp [frag]
    omega
  have hdrop2 : q.drop (8 + p1.length) = frag 3 p2 ++ frag 2 p3 := by
    rw [hq]
    exact List.drop_left' (by rw [frag_length])
  have hdrop4 : q.drop (8 + p1.length + 8 + p2.length) = frag 2 p3 ++ [] := by
    have e : 8 + p1.length + 8 + p2.length =
        8 + p1.length + (8 + p2.length) := by omega
    rw [e, List.append_nil, ← List.drop_drop, hdrop2]
    exact List.drop_left' (by rw [frag_length])
  have hA : nextLogicalRecord ⟨q, 0, 4, 4, false⟩ =
      .ok ⟨q, 8, 8, 8 + p1.length, true⟩ := by
    have hstep : nextLogicalRecord ⟨q, 0, 4, 4, false⟩ =
        nextPhysicalL ⟨q, 0, 4, 4, false⟩ := rfl
    rw [hstep]
    rw [nextPhysicalL_frag _ 1 p1 (frag 3 p2 ++ frag 2 p3) rfl
      (by rw [List.drop_zero]) h1b (by omega) rfl]
    dsimp only
    rw [show (decide (1 &&& 1 ≠ 0)) = true from rfl]
  refine ⟨⟨q, 8 + p1.length + 8 + p2.length + 8 + (p3.length + 0),
    8 + (p3.length + 0), 8 + (p3.length + 0), false⟩, ?_⟩
  rw [hA]
  show readL ⟨q, 8, 8, 8 + p1.length, true⟩
      (p1.length + (p2.length + p3.length)) = _
  show readFuelL (q.length + 1) ⟨q, 8, 8, 8 + p1.length, true⟩
      (p1.length + (p2.length + p3.length)) = _
  rw [readFuelL_chunk q.length _ p1.length (p2.length + p3.length) h1 rfl
    (by dsimp only; omega)]
  dsimp only
  rw [show q.length = 23 + (p1.length + (p2.length + p3.length)) + 1 by omega]
  rw [readFuelL_roll _ _ _ (by omega) rfl]
  rw [nextPhysicalL_frag _ 3 p2 (frag 2 p3) rfl (by dsimp only; exact hdrop2)
    h2b (by omega) rfl]
  dsimp only
  rw [show (decide (3 &&& 1 ≠ 0)) = true from rfl]
  rw [show 23 + (p1.length + (p2.length + p3.length)) =
    22 + (p1.length + (p2.length + p3.length)) + 1 by omega]
  rw [readFuelL_chunk _ _ p2.length p3.length h2 rfl (by dsimp only; omega)]
  dsimp only
  rw [show 22 + (p1.length + (p2.length + p3.length)) =
    21 + (p1.length + (p2.length + p3.length)) + 1 by omega]
  rw [readFuelL_roll _ _ _ (by omega) rfl]
  rw [nextPhysicalL_frag _ 2 p3 [] rfl (by dsimp only; exact hdrop4)
    h3b (by omega) rfl]
  dsimp only
  rw [show (decide (2 &&& 1 ≠ 0)) = false from rfl]
  rw [show 21 + (p1.length + (p2.length + p3.length)) =
    20 + (p1.length + (p2.length + p3.length)) + 1 by omega]
  rw [show p3.length = p3.length + 0 from rfl]
  rw [readFuelL_chunk _ _ p3.length 0 h3 rfl (by dsimp only; omega)]
  dsimp only
  rw [show 20 + (p1.length + (p2.length + (p3.length + 0))) =
    19 + (p1.length + (p2.length + (p3.length + 0))) + 1 by omega]
  rw [readFuelL_zero]
  dsimp only
  have hfr1 : fileRead ⟨q, 8, 8, 8 + p1.length, true⟩ p1.length = p1 := by
    show (q.drop 8).take p1.length = p1
    rw [hq, drop_frag_eight]
    exact List.take_left' rfl
  have hfr2 : fileRead ⟨q, 8 + p1.length + 8, 8, 8 + p2.length, true⟩
      p2.length = p2 := by
    show (q.drop (8 + p1.length + 8)).take p2.length = p2
    rw [← List.drop_drop, hdrop2, drop_frag_eight]
    exact List.take_left' rfl
  have hfr3 : fileRead ⟨q, 8 + p1.length + 8 + p2.length + 8, 8,
      8 + (p3.length + 0), false⟩ p3.length = p3 := by
    show (q.drop (8 + p1.length + 8 + p2.length + 8)).take p3.length = p3
    rw [← List.drop_drop, hdrop4, List.append_nil]
    rw [show List.drop 8 (frag 2 p3) = p3 from by
      rw [← List.append_nil (frag 2 p3), drop_frag_eight, List.append_nil]]
    exact List.take_length p3
  rw [hfr1, hfr2, hfr3, List.append_nil]
  simp only [Except.ok.injEq, Prod.mk.injEq, St.mk.injEq, true_and, and_true]
  omega

/-- C4 witness: a concrete three-fragment logical record with payloads
[10, 11], [20, 21, 22] and [30] reads back as their concatenation. -/
theorem logicalContinuation_spec_witness :
    ∃ stF : St,
      (nextLogicalRecord ⟨frag 1 [10, 11] ++ (frag 3 [20, 21, 22] ++ frag 2 [30]),
          0, 4, 4, false⟩ >>=
        fun st1 => readL st1 (([10, 11] : List Nat).length +
          (([20, 21, 22] : List Nat).length + ([30] : List Nat).length))) =
      .ok (([10, 11] : List Nat) ++ ([20, 21, 22] ++ [30]), stF) :=
  logicalContinuation_spec [10, 11] [20, 21, 22] [30]
    (by decide) (by decide) (by decide) (by decide) (by decide) (by decide)

/-- Bit-level core of JazelleInputStream.read_float from the top-level
src/jazelle_stream.py, taking the 32-bit little-endian word read from the
stream.  Python reads the word as a signed int, but every mask applied to
it (0x8000, 0x7f80, 0x7f, 0xffff0000) selects bits below 32, so masking the
unsigned word is the same.  The line `exp_bits -= 2 << 7` may drive
exp_bits negative; the final `& 0xffffffff` then takes the low 32 bits of
the two's-complement value, which is the value mod 2^32.  Since
(A | B | C) & M = (A & M) | (B & M) | (C & M) and the sign and mantissa
terms are below 2^32 already, the wrap is made explicit here by reducing
the shifted exponent term mod 2^32 before the ORs. -/
def readFloatBits (value : Nat) : Nat :=
  if value = 0 then 0
  else
    let sign_bit := value &&& 0x8000
    let exp_bits : Int := ((value &&& 0x7f80 : Nat) : Int) - 256
    let mantissa_bits := ((value &&& 0x7f) <<< 16) ||| ((value &&& 0xffff0000) >>> 16)
    ((sign_bit <<< 16) ||| ((exp_bits * 2 ^ 16) % (2 ^ 32)).toNat |||
      mantissa_bits) &&& 0xffffffff

/-- Reference conversion following the words of the specification (and of
claim C1): sign = bit 15, vax_exp = bits 7-14 biased by 128, mantissa23 =
(bits 0-6) << 16 | (bits 16-31); re-bias as ieee_exp = vax_exp - 128 + 127,
flush to zero when ieee_exp ≤ 0, clamp to signed infinity with zero
mantissa when ieee_exp ≥ 255, else assemble
sign << 31 | ieee_exp << 23 | mantissa23.  Stated for comparison with
readFloatBits, which is translated from the source. -/
def vaxSpecBits (w : Nat) : Nat :=
  if w = 0 then 0
  else
    let sign := (w >>> 15) &&& 1
    let vax_exp := (w >>> 7) &&& 0xff
    let mantissa23 := ((w &&& 0x7f) <<< 16) ||| (w >>> 16)
    let ieee_exp : Int := (vax_exp : Int) - 128 + 127
    if ieee_exp ≤ 0 then 0
    else if 255 ≤ ieee_exp then (sign <<< 31) ||| 0x7F800000
    else (sign <<< 31) ||| (ieee_exp.toNat <<< 23) ||| mantissa23

/-- C1 counterexample: the word 0x4080 is the VAX F_FLOAT encoding of 1.0
(sign 0, exponent 129, mantissa 0).  The code returns the IEEE bits of 1.0,
0x3F800000 (the source subtracts 2 from the exponent field, the correct
VAX hidden-bit re-bias), while the reference definition written in the
claim re-biases by -128+127 and returns 0x40000000, the bits of 2.0. -/
theorem readFloat_counterexample :
    readFloatBits 0x4080 = 0x3F800000 ∧ vaxSpecBits 0x4080 = 0x40000000 ∧
      readFloatBits 0x4080 ≠ vaxSpecBits 0x4080 := by
  refine ⟨?_, ?_, ?_⟩ <;> decide

/-- C1 amended: write the nonzero input word as a + 128*b + 32768*s +
65536*c, so that (as in the claim) s is the sign bit 15, b the exponent
field in bits 7-14, and a*2^16 + c the 23-bit mantissa built from bits 0-6
and 16-31.  The code re-biases the exponent by subtracting 2 (the correct
VAX hidden-bit re-bias, not the -128+127 of the claim), performs no
subnormal flush and no infinity clamp: for b ≥ 2 the bits are
sign*2^31 + (b-2)*2^23 + mantissa23, while for b = 1 and b = 0 the
subtraction wraps mod 2^32, yielding 0xFF800000 + mantissa23 and
0xFF000000 + mantissa23 respectively (NaN or infinity range patterns, not
zero). -/
theorem readFloat_spec (a b s c : Nat) (ha : a < 128) (hb : b < 256)
    (hs : s < 2) (hc : c < 65536) :
    readFloatBits (a + 128 * b + 32768 * s + 65536 * c) =
      if a + 128 * b + 32768 * s + 65536 * c = 0 then 0
      else if 2 ≤ b then s * 2 ^ 31 + (b - 2) * 2 ^ 23 + (a * 2 ^ 16 + c)
      else if b = 1 then 0xFF800000 + (a * 2 ^ 16 + c)
      else 0xFF000000 + (a * 2 ^ 16 + c) := by
  set v := a + 128 * b + 32768 * s + 65536 * c with hv
  by_cases h0 : v = 0
  · rw [readFloatBits, if_pos h0, if_pos h0]
  · have hm1 : v &&& 0x8000 = 32768 * s := by
      have h := land_mask v 1 15
      rw [Nat.shiftLeft_eq] at h
      norm_num at h
      rw [h]
      omega
    have hm2 : v &&& 0x7f80 = 128 * b := by
      have h := land_mask v 8 7
      rw [Nat.shiftLeft_eq] at h
      norm_num at h
      rw [h]
      omega
    have hm3 : v &&& 0x7f = a := by
      have h := land_mask v 7 0
      rw [Nat.shiftLeft_eq] at h
      norm_num at h
      rw [h]
      omega
    have hm4 : v &&& 0xffff0000 = 65536 * c := by
      have h := land_mask v 16 16
      rw [Nat.shiftLeft_eq] at h
      norm_num at h
      rw [h]
      omega
    have hm5 : (v &&& 0xffff0000) >>> 16 = c := by
      rw [hm4, Nat.shiftRight_eq_div_pow]
      omega
    have hmant : ((v &&& 0x7f) <<< 16) ||| ((v &&& 0xffff0000) >>> 16) =
        2 ^ 16 * a + c := by
      rw [hm3, hm5, Nat.shiftLeft_eq, mul_comm a (2 ^ 16)]
      exact (Nat.mul_add_lt_is_or (by omega) a).symm
    have hexp : (((((v &&& 0x7f80 : Nat) : Int) - 256) * 2 ^ 16) %
        (2 ^ 32)).toNat =
        if 2 ≤ b then (b - 2) * 2 ^ 23
        else if b = 1 then 0xFF800000 else 0xFF000000 := by
      rw [hm2]
      by_cases hb2 : 2 ≤ b
      · rw [if_pos hb2]
        omega
      · rw [if_neg hb2]
        by_cases hb1 : b = 1
        · rw [if_pos hb1, hb1]
          decide
        · rw [if_neg hb1]
          omega
    simp only [readFloatBits]
    rw [if_neg h0, if_neg h0, hm1, hexp, hmant]
    by_cases hb2 : 2 ≤ b
    · rw [if_pos hb2, if_pos hb2]
      rw [Nat.shiftLeft_eq]
      rw [show 32768 * s * 2 ^ 16 = 2 ^ 31 * s by ring]
      rw [(Nat.mul_add_lt_is_or (show (b - 2) * 2 ^ 23 < 2 ^ 31 by omega) s).symm]
      rw [show 2 ^ 31 * s + (b - 2) * 2 ^ 23 =
        2 ^ 23 * (2 ^ 8 * s + (b - 2)) by ring]
      rw [(Nat.mul_add_lt_is_or (show 2 ^ 16 * a + c < 2 ^ 23 by omega)
        (2 ^ 8 * s + (b - 2))).symm]
      rw [show (0xffffffff : Nat) = 2 ^ 32 - 1 by norm_num]
      rw [Nat.and_pow_two_sub_one_of_lt_two_pow (by omega)]
      omega
    · rw [if_neg hb2, if_neg hb2]
      by_cases hb1 : b = 1
      · rw [if_pos hb1, if_pos hb1]
        rw [Nat.shiftLeft_eq]
        rw [show 32768 * s * 2 ^ 16 = 2 ^ 31 * s by ring]
        have hso : 2 ^ 31 * s ||| 0xFF800000 = 0xFF800000 := by
          interval_cases s
          · decide
          · decide
        rw [hso]
        rw [show (0xFF800000 : Nat) = 2 ^ 23 * 511 by norm_num]
        rw [(Nat.mul_add_lt_is_or (show 2 ^ 16 * a + c < 2 ^ 23 by omega)
          511).symm]
        rw [show (0xffffffff : Nat) = 2 ^ 32 - 1 by norm_num]
        rw [Nat.and_pow_two_sub_one_of_lt_two_pow (by omega)]
        omega
      · rw [if_neg hb1, if_neg hb1]
        rw [Nat.shiftLeft_eq]
        rw [show 32768 * s * 2 ^ 16 = 2 ^ 31 * s by ring]
        have hso : 2 ^ 31 * s ||| 0xFF000000 = 0xFF000000 := by
          interval_cases s
          · decide
          · decide
        rw [hso]
        rw [show (0xFF000000 : Nat) = 2 ^ 24 * 255 by norm_num]
        rw [(Nat.mul_add_lt_is_or (show 2 ^ 16 * a + c < 2 ^ 24 by omega)
          255).symm]
        rw [show (0xffffffff : Nat) = 2 ^ 32 - 1 by norm_num]
        rw [Nat.and_pow_two_sub_one_of_lt_two_pow (by omega)]
        omega

/-- C1 amended witness: the VAX word 0x4080 (sign 0, exponent 129,
mantissa 0) maps to exponent field 127, the IEEE bits of 1.0. -/
theorem readFloat_spec_witness :
    readFloatBits (0 + 128 * 129 + 32768 * 0 + 65536 * 0) =
      if 0 + 128 * 129 + 32768 * 0 + 65536 * 0 = 0 then 0
      else if 2 ≤ 129 then 0 * 2 ^ 31 + (129 - 2) * 2 ^ 23 + (0 * 2 ^ 16 + 0)
      else if 129 = 1 then 0xFF800000 + (0 * 2 ^ 16 + 0)
      else 0xFF000000 + (0 * 2 ^ 16 + 0) :=
  readFloat_spec 0 129 0 0 (by decide) (by decide) (by decide) (by decide)

/-- Little-endian unsigned 16-bit value at byte index i of a byte list. -/
def le16 (l : List Nat) (i : Nat) : Nat :=
  l.getD i 0 + 256 * l.getD (i + 1) 0

/-- Little-endian unsigned 32-bit value at byte index i of a byte list. -/
def le32 (l : List Nat) (i : Nat) : Nat :=
  le16 l i + 65536 * le16 l (i + 2)

/-- Two's-complement interpretation of an unsigned 16-bit value. -/
def toInt16 (v : Nat) : Int :=
  if v < 32768 then (v : Int) else (v : Int) - 65536

/-- Two's-complement interpretation of an unsigned 32-bit value. -/
def toInt32 (v : Nat) : Int :=
  if v < 2147483648 then (v : Int) else (v : Int) - 4294967296

/-- Signed little-endian 16-bit field at byte index i. -/
def i16At (l : List Nat) (i : Nat) : Int :=
  toInt16 (le16 l i)

/-- Signed little-endian 32-bit field at byte index i. -/
def i32At (l : List Nat) (i : Nat) : Int :=
  toInt32 (le32 l i)

/-- Modelled from the spec: the external vax package (from_vax32), which
converts a VAX F_FLOAT word to an IEEE single; the package is not part of
this repository, so the value is modelled exactly in ℚ following section
4.1 of the spec: sign = bit 15, exponent = bits 7-14 biased by 128,
23-bit mantissa from bits 0-6 (high) and 16-31 (low) under an implicit
leading 0.1 binary point.  A zero word is zero.  The claims that use this
definition only compare sums of converted words with each other, so the
exact-value model suffices. -/
def vaxToQ (w : Nat) : ℚ :=
  if w = 0 then 0
  else
    let sign := (w >>> 15) &&& 1
    let e := (w >>> 7) &&& 0xff
    let m := ((w &&& 0x7f) <<< 16) ||| (w >>> 16)
    (if sign = 1 then (-1 : ℚ) else 1) * ((2 ^ 23 + (m : ℚ)) / 2 ^ 24) *
      (2 : ℚ) ^ ((e : ℤ) - 128)

/-- Consecutive VAX float fields starting at byte index base. -/
def vaxArr (d : List Nat) (base cnt : Nat) : List ℚ :=
  (List.range cnt).map (fun j => vaxToQ (le32 d (base + 4 * j)))

/-- utils/data_buffer.py DataBuffer: a memoryview plus an offset.  The
cached `size` never changes after construction, so it is modelled by the
length of the backing list. -/
structure DataBuffer where
  data : List Nat
  offset : Nat
deriving DecidableEq

/-- DataBuffer.read: return the slice buffer[offset : offset + n] (Python
slicing clamps at the end of the buffer, never raising) and advance the
offset by n unconditionally. -/
def DataBuffer.read (b : DataBuffer) (n : Nat) : List Nat × DataBuffer :=
  ((b.data.drop b.offset).take n, { b with offset := b.offset + n })

/-- DataBuffer.skip: advance the offset without reading. -/
def DataBuffer.skip (b : DataBuffer) (n : Nat) : DataBuffer :=
  { b with offset := b.offset + n }

/-- DataBuffer.remaining: size - offset; negative once the offset has been
driven past the end. -/
def DataBuffer.remaining (b : DataBuffer) : Int :=
  (b.data.length : Int) - (b.offset : Int)

/-- Five-component particle-identification log-likelihood vector. -/
structure Pidvec where
  e : ℚ
  mu : ℚ
  pi : ℚ
  k : ℚ
  p : ℚ
deriving DecidableEq

/-- One CRIDHYP hypothesis block of PHCRID (banks/phcrid.py): llik is
populated only by the full 36-byte form; the short 4-byte form leaves the
other fields zero. -/
structure CridHyp where
  llik : Option Pidvec
  rc : Int
  nhits : Int
  besthyp : Int
  nhexp : Int
  nhfnd : Int
  nhbkg : Int
  mskphot : Int
deriving DecidableEq

/-- One decoded PHCRID record. -/
structure CridRecord where
  id : Int
  rc : Int
  geom : Int
  trkp : Int
  nhits : Int
  liq_hyp : CridHyp
  gas_hyp : CridHyp
  llik : Pidvec
deriving DecidableEq

/-- PHCRID._parse_cridhyp: full 36-byte block (five VAX llik words, rc,
nhits, besthyp, nhexp, nhfnd, nhbkg, mskphot) or short 4-byte block (rc,
nhits only), with a remaining() bound checked before each read. -/
def parseCridhyp (b : DataBuffer) (full : Bool) :
    (Except JErr CridHyp) × DataBuffer :=
  if full then
    if b.remaining < 36 then (.error .insufficient, b)
    else
      let r := b.read 36
      (.ok { llik := some ⟨vaxToQ (le32 r.1 0), vaxToQ (le32 r.1 4),
               vaxToQ (le32 r.1 8), vaxToQ (le32 r.1 12), vaxToQ (le32 r.1 16)⟩,
             rc := i16At r.1 20, nhits := i16At r.1 22, besthyp := i32At r.1 24,
             nhexp := i16At r.1 28, nhfnd := i16At r.1 30, nhbkg := i16At r.1 32,
             mskphot := i16At r.1 34 }, r.2)
  else
    if b.remaining < 4 then (.error .insufficient, b)
    else
      let r := b.read 4
      (.ok { llik := none, rc := i16At r.1 0, nhits := i16At r.1 2,
             besthyp := 0, nhexp := 0, nhfnd := 0, nhbkg := 0,
             mskphot := 0 }, r.2)

/-- PHCRID._combine_pidvec: initialize every component to norm, then add
the liquid PIDVEC componentwise when present, then the gas PIDVEC. -/
def combinePidvec (liq gas : Option Pidvec) (norm : ℚ) : Pidvec :=
  let r0 : Pidvec := ⟨norm, norm, norm, norm, norm⟩
  let r1 := match liq with
    | some l => (⟨r0.e + l.e, r0.mu + l.mu, r0.pi + l.pi, r0.k + l.k,
        r0.p + l.p⟩ : Pidvec)
    | none => r0
  match gas with
  | some g => ⟨r1.e + g.e, r1.mu + g.mu, r1.pi + g.pi, r1.k + g.k, r1.p + g.p⟩
  | none => r1

/-- One iteration of PHCRID.parse: the 16-byte fixed header, then the
liquid and gas CRIDHYP blocks whose size is selected by bits 0x10000 and
0x20000 of the id word.  Python applies these masks to the signed id, but
bit 16 of the two's complement equals bit 16 of the raw unsigned word, so
the masks are applied to the word here. -/
def phcridParseRecord (b : DataBuffer) : (Except JErr CridRecord) × DataBuffer :=
  if b.remaining < 16 then (.error .insufficient, b)
  else
    let r := b.read 16
    let idW := le32 r.1 0
    let norm := vaxToQ (le32 r.1 4)
    match parseCridhyp r.2 (idW &&& 0x10000 != 0) with
    | (.error e, b2) => (.error e, b2)
    | (.ok liq, b2) =>
      match parseCridhyp b2 (idW &&& 0x20000 != 0) with
      | (.error e, b3) => (.error e, b3)
      | (.ok gas, b3) =>
        (.ok { id := toInt32 idW, rc := i16At r.1 8, geom := i16At r.1 10,
               trkp := i16At r.1 12, nhits := i16At r.1 14,
               liq_hyp := liq, gas_hyp := gas,
               llik := combinePidvec
                 (if (idW &&& 0x10000 != 0 : Bool) then liq.llik else none)
                 (if (idW &&& 0x20000 != 0 : Bool) then gas.llik else none)
                 norm }, b3)

/-- PHCRID.parse: n records in sequence; n = 0 returns the empty list at
once. -/
def phcridParse : DataBuffer → Nat → (Except JErr (List CridRecord)) × DataBuffer
  | b, 0 => (.ok [], b)
  | b, n + 1 =>
    match phcridParseRecord b with
    | (.error e, b1) => (.error e, b1)
    | (.ok r, b1) =>
      match phcridParse b1 n with
      | (.error e, b2) => (.error e, b2)
      | (.ok rs, b2) => (.ok (r :: rs), b2)

/-- One decoded PHPSUM record (36 bytes). -/
structure PhpsumRec where
  id : Int
  px : ℚ
  py : ℚ
  pz : ℚ
  x : ℚ
  y : ℚ
  z : ℚ
  charge : ℚ
  status : Int
deriving DecidableEq

def phpsumRecordAt (d : List Nat) (i : Nat) : PhpsumRec :=
  { id := i32At d i, px := vaxToQ (le32 d (i + 4)), py := vaxToQ (le32 d (i + 8)),
    pz := vaxToQ (le32 d (i + 12)), x := vaxToQ (le32 d (i + 16)),
    y := vaxToQ (le32 d (i + 20)), z := vaxToQ (le32 d (i + 24)),
    charge := vaxToQ (le32 d (i + 28)), status := i32At d (i + 32) }

def decodePhpsum : Nat → Nat → List Nat → List PhpsumRec
  | 0, _, _ => []
  | n + 1, i, d => phpsumRecordAt d i :: decodePhpsum n (i + 36) d

/-- PHPSUM.parse (banks/phpsum.py): early return on n = 0, then the
remaining() validation, then one bulk read of n * 36 bytes decoded
per-record. -/
def phpsumParse (b : DataBuffer) (n : Nat) :
    (Except JErr (List PhpsumRec)) × DataBuffer :=
  if n = 0 then (.ok [], b)
  else if b.remaining < ((n * 36 : Nat) : Int) then (.error .insufficient, b)
  else
    let r := b.read (n * 36)
    (.ok (decodePhpsum n 0 r.1), r.2)

/-- One decoded PHKLUS record (100 bytes). -/
structure PhklusRec where
  id : Int
  status : Int
  eraw : ℚ
  cth : ℚ
  wcth : ℚ
  phi : ℚ
  wphi : ℚ
  elayer : List ℚ
  nhit2 : Int
  cth2 : ℚ
  wcth2 : ℚ
  phi2 : ℚ
  wphi2 : ℚ
  nhit3 : Int
  cth3 : ℚ
  wcth3 : ℚ
  phi3 : ℚ
  wphi3 : ℚ
deriving DecidableEq

def phklusRecordAt (d : List Nat) (i : Nat) : PhklusRec :=
  { id := i32At d i, status := i32At d (i + 4), eraw := vaxToQ (le32 d (i + 8)),
    cth := vaxToQ (le32 d (i + 12)), wcth := vaxToQ (le32 d (i + 16)),
    phi := vaxToQ (le32 d (i + 20)), wphi := vaxToQ (le32 d (i + 24)),
    elayer := vaxArr d (i + 28) 8, nhit2 := i32At d (i + 60),
    cth2 := vaxToQ (le32 d (i + 64)), wcth2 := vaxToQ (le32 d (i + 68)),
    phi2 := vaxToQ (le32 d (i + 72)), wphi2 := vaxToQ (le32 d (i + 76)),
    nhit3 := i32At d (i + 80), cth3 := vaxToQ (le32 d (i + 84)),
    wcth3 := vaxToQ (le32 d (i + 88)), phi3 := vaxToQ (le32 d (i + 92)),
    wphi3 := vaxToQ (le32 d (i + 96)) }

def decodePhklus : Nat → Nat → List Nat → List PhklusRec
  | 0, _, _ => []
  | n + 1, i, d => phklusRecordAt d i :: decodePhklus n (i + 100) d

/-- PHKLUS.parse (banks/phklus.py): unlike the other fixed-width banks it
performs NO remaining() validation; it reads n * 100 bytes unconditionally
(advancing the offset) and hands whatever came back to numpy, whose
frombuffer/reshape(n, 25) raise when the data is short. -/
def phklusParse (b : DataBuffer) (n : Nat) :
    (Except JErr (List PhklusRec)) × DataBuffer :=
  if n = 0 then (.ok [], b)
  else
    let r := b.read (n * 100)
    if r.1.length ≠ n * 100 then (.error .numpyError, r.2)
    else (.ok (decodePhklus n 0 r.1), r.2)

/-- One decoded PHCHRG record (240 bytes per the packed DTYPE_RAW). -/
structure PhchrgRec where
  id : Int
  hlxpar : List ℚ
  dhlxpar : List ℚ
  bnorm : ℚ
  impact : ℚ
  b3nrom : ℚ
  impact3 : ℚ
  charge : Int
  smwstat : Int
  status : Int
  tkpar0 : ℚ
  tkpar : List ℚ
  dtkpar : List ℚ
  length : ℚ
  chi2dt : ℚ
  imc : Int
  ndfdt : Int
  nhit : Int
  nhite : Int
  nhitp : Int
  nmisht : Int
  nwrght : Int
  nhitv : Int
  chi2 : ℚ
  chi2v : ℚ
  vxdhit : Int
  mustat : Int
  estat : Int
  dedx : Int
deriving DecidableEq

def phchrgRecordAt (d : List Nat) (i : Nat) : PhchrgRec :=
  { id := i32At d i, hlxpar := vaxArr d (i + 4) 6, dhlxpar := vaxArr d (i + 28) 15,
    bnorm := vaxToQ (le32 d (i + 88)), impact := vaxToQ (le32 d (i + 92)),
    b3nrom := vaxToQ (le32 d (i + 96)), impact3 := vaxToQ (le32 d (i + 100)),
    charge := i16At d (i + 104), smwstat := i16At d (i + 106),
    status := i32At d (i + 108), tkpar0 := vaxToQ (le32 d (i + 112)),
    tkpar := vaxArr d (i + 116) 5, dtkpar := vaxArr d (i + 136) 15,
    length := vaxToQ (le32 d (i + 196)), chi2dt := vaxToQ (le32 d (i + 200)),
    imc := i16At d (i + 204), ndfdt := i16At d (i + 206), nhit := i16At d (i + 208),
    nhite := i16At d (i + 210), nhitp := i16At d (i + 212),
    nmisht := i16At d (i + 214), nwrght := i16At d (i + 216),
    nhitv := i16At d (i + 218), chi2 := vaxToQ (le32 d (i + 220)),
    chi2v := vaxToQ (le32 d (i + 224)), vxdhit := i32At d (i + 228),
    mustat := i16At d (i + 232), estat := i16At d (i + 234),
    dedx := i32At d (i + 236) }

def decodePhchrg : Nat → Nat → List Nat → List PhchrgRec
  | 0, _, _ => []
  | n + 1, i, d => phchrgRecordAt d i :: decodePhchrg n (i + 240) d

/-- PHCHRG.parse (banks/phchrg.py): n = 0 early return, remaining()
validation, one bulk read. -/
def phchrgParse (b : DataBuffer) (n : Nat) :
    (Except JErr (List PhchrgRec)) × DataBuffer :=
  if n = 0 then (.ok [], b)
  else if b.remaining < ((n * 240 : Nat) : Int) then (.error .insufficient, b)
  else
    let r := b.read (n * 240)
    (.ok (decodePhchrg n 0 r.1), r.2)

/-- One decoded PHWIC record (144 bytes including the 2-byte pad). -/
structure PhwicRec where
  id : Int
  idstat : Int
  nhit : Int
  nhit45 : Int
  npat : Int
  nhitpat : Int
  syshit : Int
  qpinit : ℚ
  t1 : ℚ
  t2 : ℚ
  t3 : ℚ
  hitmiss : Int
  itrlen : ℚ
  nlayexp : Int
  nlaybey : Int
  missprob : ℚ
  phwicid : Int
  nhitshar : Int
  nother : Int
  hitsused : Int
  pref1 : List ℚ
  pfit : List ℚ
  dpfit : List ℚ
  chi2 : ℚ
  ndf : Int
  punfit : Int
  matchChi2 : ℚ
  matchNdf : Int
deriving DecidableEq

def phwicRecordAt (d : List Nat) (i : Nat) : PhwicRec :=
  { id := i32At d i, idstat := i16At d (i + 4), nhit := i16At d (i + 6),
    nhit45 := i16At d (i + 8), npat := i16At d (i + 10),
    nhitpat := i16At d (i + 12), syshit := i16At d (i + 14),
    qpinit := vaxToQ (le32 d (i + 16)), t1 := vaxToQ (le32 d (i + 20)),
    t2 := vaxToQ (le32 d (i + 24)), t3 := vaxToQ (le32 d (i + 28)),
    hitmiss := i32At d (i + 32), itrlen := vaxToQ (le32 d (i + 36)),
    nlayexp := i16At d (i + 40), nlaybey := i16At d (i + 42),
    missprob := vaxToQ (le32 d (i + 44)), phwicid := i32At d (i + 48),
    nhitshar := i16At d (i + 52), nother := i16At d (i + 54),
    hitsused := i32At d (i + 56), pref1 := vaxArr d (i + 60) 3,
    pfit := vaxArr d (i + 72) 4, dpfit := vaxArr d (i + 88) 10,
    chi2 := vaxToQ (le32 d (i + 128)), ndf := i16At d (i + 132),
    punfit := i16At d (i + 134), matchChi2 := vaxToQ (le32 d (i + 136)),
    matchNdf := i16At d (i + 140) }

def decodePhwic : Nat → Nat → List Nat → List PhwicRec
  | 0, _, _ => []
  | n + 1, i, d => phwicRecordAt d i :: decodePhwic n (i + 144) d

/-- PHWIC.parse (banks/phwic.py): n = 0 early return, remaining()
validation, one bulk read. -/
def phwicParse (b : DataBuffer) (n : Nat) :
    (Except JErr (List PhwicRec)) × DataBuffer :=
  if n = 0 then (.ok [], b)
  else if b.remaining < ((n * 144 : Nat) : Int) then (.error .insufficient, b)
  else
    let r := b.read (n * 144)
    (.ok (decodePhwic n 0 r.1), r.2)

/-- One decoded PHKELID record (96 bytes per the packed DTYPE_RAW). -/
structure PhkelidRec where
  id : Int
  idstat : Int
  prob : Int
  phi : ℚ
  theta : ℚ
  qp : ℚ
  dphi : ℚ
  dtheta : ℚ
  dqp : ℚ
  tphi : ℚ
  ttheta : ℚ
  isolat : ℚ
  em1 : ℚ
  em12 : ℚ
  dem12 : ℚ
  had1 : ℚ
  emphi : ℚ
  emtheta : ℚ
  phiwid : ℚ
  thewid : ℚ
  em1x1 : ℚ
  em2x2a : ℚ
  em2x2b : ℚ
  em3x3a : ℚ
  em3x3b : ℚ
deriving DecidableEq

def phkelidRecordAt (d : List Nat) (i : Nat) : PhkelidRec :=
  { id := i32At d i, idstat := i16At d (i + 4), prob := i16At d (i + 6),
    phi := vaxToQ (le32 d (i + 8)), theta := vaxToQ (le32 d (i + 12)),
    qp := vaxToQ (le32 d (i + 16)), dphi := vaxToQ (le32 d (i + 20)),
    dtheta := vaxToQ (le32 d (i + 24)), dqp := vaxToQ (le32 d (i + 28)),
    tphi := vaxToQ (le32 d (i + 32)), ttheta := vaxToQ (le32 d (i + 36)),
    isolat := vaxToQ (le32 d (i + 40)), em1 := vaxToQ (le32 d (i + 44)),
    em12 := vaxToQ (le32 d (i + 48)), dem12 := vaxToQ (le32 d (i + 52)),
    had1 := vaxToQ (le32 d (i + 56)), emphi := vaxToQ (le32 d (i + 60)),
    emtheta := vaxToQ (le32 d (i + 64)), phiwid := vaxToQ (le32 d (i + 68)),
    thewid := vaxToQ (le32 d (i + 72)), em1x1 := vaxToQ (le32 d (i + 76)),
    em2x2a := vaxToQ (le32 d (i + 80)), em2x2b := vaxToQ (le32 d (i + 84)),
    em3x3a := vaxToQ (le32 d (i + 88)), em3x3b := vaxToQ (le32 d (i + 92)) }

def decodePhkelid : Nat → Nat → List Nat → List PhkelidRec
  | 0, _, _ => []
  | n + 1, i, d => phkelidRecordAt d i :: decodePhkelid n (i + 96) d

/-- PHKELID.parse (banks/phkelid.py): n = 0 early return, remaining()
validation, one bulk read. -/
def phkelidParse (b : DataBuffer) (n : Nat) :
    (Except JErr (List PhkelidRec)) × DataBuffer :=
  if n = 0 then (.ok [], b)
  else if b.remaining < ((n * 96 : Nat) : Int) then (.error .insufficient, b)
  else
    let r := b.read (n * 96)
    (.ok (decodePhkelid n 0 r.1), r.2)

/-- One decoded PHKTRK record (4 bytes, id only). -/
structure PhktrkRec where
  id : Int
deriving DecidableEq

def decodePhktrk : Nat → Nat → List Nat → List PhktrkRec
  | 0, _, _ => []
  | n + 1, i, d => ⟨i32At d i⟩ :: decodePhktrk n (i + 4) d

/-- PHKTRK.parse (banks/phktrk.py): n = 0 early return, remaining()
validation, one bulk read of the placeholder 4-byte records. -/
def phktrkParse (b : DataBuffer) (n : Nat) :
    (Except JErr (List PhktrkRec)) × DataBuffer :=
  if n = 0 then (.ok [], b)
  else if b.remaining < ((n * 4 : Nat) : Int) then (.error .insufficient, b)
  else
    let r := b.read (n * 4)
    (.ok (decodePhktrk n 0 r.1), r.2)

/-- C8 counterexample: on a one-byte buffer, read(2) does not fail with
BufferUnderflow or anything else: it returns a slice of length 1 (shorter
than requested) and leaves the offset at 2, beyond the end of the backing
buffer, driving remaining() to -1. -/
theorem bufferRead_counterexample :
    (DataBuffer.read ⟨[7], 0⟩ 2).1.length = 1 ∧
      (DataBuffer.read ⟨[7], 0⟩ 2).2.offset = 2 ∧
      (DataBuffer.read ⟨[7], 0⟩ 2).2.remaining = -1 := by
  refine ⟨?_, ?_, ?_⟩ <;> decide

/-- C8 amended: DataBuffer.read never fails.  It returns the clamped slice
data[offset : offset + n], whose length is n clamped to the bytes actually
available, and always advances the offset by exactly n, so remaining()
decreases by n and may become negative; bounds checking is left to the
callers (the bank decoders). -/
theorem bufferRead_spec (b : DataBuffer) (n : Nat) :
    ((DataBuffer.read b n).1).length = min n (b.data.length - b.offset) ∧
    (DataBuffer.read b n).2.offset = b.offset + n ∧
    (DataBuffer.read b n).2.remaining = b.remaining - n := by
  refine ⟨?_, rfl, ?_⟩
  · simp [DataBuffer.read]
  · simp only [DataBuffer.read, DataBuffer.remaining]
    push_cast
    ring

/-- C10: every bank decoder that takes a record count returns an empty
result on parse(buffer, 0) without raising and without touching the
buffer, whatever the buffer contents: the buffer comes back unchanged, so
its offset and remaining() are unchanged. -/
theorem parse_zero_spec (b : DataBuffer) :
    phpsumParse b 0 = (.ok [], b) ∧ phchrgParse b 0 = (.ok [], b) ∧
    phklusParse b 0 = (.ok [], b) ∧ phwicParse b 0 = (.ok [], b) ∧
    phcridParse b 0 = (.ok [], b) ∧ phkelidParse b 0 = (.ok [], b) ∧
    phktrkParse b 0 = (.ok [], b) :=
  ⟨rfl, rfl, rfl, rfl, rfl, rfl, rfl⟩

/-- C7 counterexample: PHKLUS.parse performs no remaining() validation.
On a three-byte buffer with n = 1 (record size 100) it consumes input --
the offset advances to 100, past the end -- and the failure is the numpy
error raised downstream, not a BufferUnderflow-style check. -/
theorem bankUnderflow_counterexample :
    (phklusParse ⟨[1, 2, 3], 0⟩ 1).1 = .error .numpyError ∧
      (phklusParse ⟨[1, 2, 3], 0⟩ 1).2.offset = 100 := by
  refine ⟨?_, ?_⟩ <;> decide

/-- C7 amended: for every buffer and n > 0, the decoders PHPSUM, PHCHRG,
PHWIC, PHKELID and PHKTRK validate remaining() ≥ n * record_size before
reading and, when the buffer is short, fail with the BufferUnderflow kind
returning the buffer untouched; PHKLUS performs no such check: on a short
buffer it advances the offset by n * 100 regardless and fails with the
downstream numpy error. -/
theorem bankUnderflow_spec (b : DataBuffer) (n : Nat) (hn : 0 < n) :
    (b.remaining < ((n * 36 : Nat) : Int) →
      phpsumParse b n = (.error .insufficient, b)) ∧
    (b.remaining < ((n * 240 : Nat) : Int) →
      phchrgParse b n = (.error .insufficient, b)) ∧
    (b.remaining < ((n * 144 : Nat) : Int) →
      phwicParse b n = (.error .insufficient, b)) ∧
    (b.remaining < ((n * 96 : Nat) : Int) →
      phkelidParse b n = (.error .insufficient, b)) ∧
    (b.remaining < ((n * 4 : Nat) : Int) →
      phktrkParse b n = (.error .insufficient, b)) ∧
    (b.remaining < ((n * 100 : Nat) : Int) →
      (phklusParse b n).1 = .error .numpyError ∧
      (phklusParse b n).2.offset = b.offset + n * 100) := by
  refine ⟨?_, ?_, ?_, ?_, ?_, ?_⟩
  · intro h
    rw [phpsumParse, if_neg (by omega), if_pos h]
  · intro h
    rw [phchrgParse, if_neg (by omega), if_pos h]
  · intro h
    rw [phwicParse, if_neg (by omega), if_pos h]
  · intro h
    rw [phkelidParse, if_neg (by omega), if_pos h]
  · intro h
    rw [phktrkParse, if_neg (by omega), if_pos h]
  · intro h
    have hshort : ((b.data.drop b.offset).take (n * 100)).length ≠ n * 100 := by
      simp only [List.length_take, List.length_drop]
      have hrem := b.remaining
      simp only [DataBuffer.remaining] at h
      omega
    constructor
    · rw [phklusParse, if_neg (by omega)]
      simp only [DataBuffer.read]
      rw [if_pos hshort]
    · rw [phklusParse, if_neg (by omega)]
      simp only [DataBuffer.read]
      rw [if_pos hshort]

/-- C7 amended witness: PHPSUM on an empty buffer with n = 1 fails with
the BufferUnderflow kind and the buffer is returned untouched. -/
theorem bankUnderflow_spec_witness :
    phpsumParse ⟨[], 0⟩ 1 = (.error .insufficient, ⟨[], 0⟩) :=
  (bankUnderflow_spec ⟨[], 0⟩ 1 (by decide)).1 (by decide)

theorem getD_take_drop (l : List Nat) (off n i : Nat) (hik : i < n) :
    ((l.drop off).take n).getD i 0 = l.getD (off + i) 0 := by
  rw [List.getD_eq_getElem?_getD, List.getD_eq_getElem?_getD,
    List.getElem?_take_of_lt hik, List.getElem?_drop]

theorem le16_slice (l : List Nat) (off n i : Nat) (h : i + 2 ≤ n) :
    le16 ((l.drop off).take n) i = le16 l (off + i) := by
  unfold le16
  rw [getD_take_drop l off n i (by omega), getD_take_drop l off n (i + 1) (by omega)]
  rw [show off + (i + 1) = off + i + 1 by omega]

theorem le32_slice (l : List Nat) (off n i : Nat) (h : i + 4 ≤ n) :
    le32 ((l.drop off).take n) i = le32 l (off + i) := by
  unfold le32
  rw [le16_slice l off n i (by omega), le16_slice l off n (i + 2) (by omega)]
  rw [show off + (i + 2) = off + i + 2 by omega]

theorem i16At_slice (l : List Nat) (off n i : Nat) (h : i + 2 ≤ n) :
    i16At ((l.drop off).take n) i = i16At l (off + i) := by
  unfold i16At
  rw [le16_slice l off n i h]

theorem i32At_slice (l : List Nat) (off n i : Nat) (h : i + 4 ≤ n) :
    i32At ((l.drop off).take n) i = i32At l (off + i) := by
  unfold i32At
  rw [le32_slice l off n i h]

theorem parseCridhyp_full (b : DataBuffer) (h : b.offset + 36 ≤ b.data.length) :
    parseCridhyp b true =
      (.ok { llik := some ⟨vaxToQ (le32 b.data (b.offset + 0)),
               vaxToQ (le32 b.data (b.offset + 4)),
               vaxToQ (le32 b.data (b.offset + 8)),
               vaxToQ (le32 b.data (b.offset + 12)),
               vaxToQ (le32 b.data (b.offset + 16))⟩,
             rc := i16At b.data (b.offset + 20), nhits := i16At b.data (b.offset + 22),
             besthyp := i32At b.data (b.offset + 24),
             nhexp := i16At b.data (b.offset + 28), nhfnd := i16At b.data (b.offset + 30),
             nhbkg := i16At b.data (b.offset + 32),
             mskphot := i16At b.data (b.offset + 34) },
        { b with offset := b.offset + 36 }) := by
  have hrem : ¬ b.remaining < 36 := by
    simp only [DataBuffer.remaining]
    omega
  simp only [parseCridhyp, if_pos rfl, if_neg hrem, DataBuffer.read]
  rw [show le32 ((b.data.drop b.offset).take 36) 0 = le32 b.data (b.offset + 0) from
    by rw [le32_slice b.data b.offset 36 0 (by omega)]]
  rw [le32_slice b.data b.offset 36 4 (by omega),
    le32_slice b.data b.offset 36 8 (by omega),
    le32_slice b.data b.offset 36 12 (by omega),
    le32_slice b.data b.offset 36 16 (by omega),
    i16At_slice b.data b.offset 36 20 (by omega),
    i16At_slice b.data b.offset 36 22 (by omega),
    i32At_slice b.data b.offset 36 24 (by omega),
    i16At_slice b.data b.offset 36 28 (by omega),
    i16At_slice b.data b.offset 36 30 (by omega),
    i16At_slice b.data b.offset 36 32 (by omega),
    i16At_slice b.data b.offset 36 34 (by omega)]
  rw [if_pos trivial]

theorem parseCridhyp_short (b : DataBuffer) (h : b.offset + 4 ≤ b.data.length) :
    parseCridhyp b false =
      (.ok { llik := none, rc := i16At b.data (b.offset + 0),
             nhits := i16At b.data (b.offset + 2), besthyp := 0, nhexp := 0,
             nhfnd := 0, nhbkg := 0, mskphot := 0 },
        { b with offset := b.offset + 4 }) := by
  have hrem : ¬ b.remaining < 4 := by
    simp only [DataBuffer.remaining]
    omega
  simp only [parseCridhyp, if_neg hrem, DataBuffer.read, Bool.false_eq_true,
    if_false]
  rw [show i16At ((b.data.drop b.offset).take 4) 0 = i16At b.data (b.offset + 0) from
    by rw [i16At_slice b.data b.offset 4 0 (by omega)]]
  rw [i16At_slice b.data b.offset 4 2 (by omega)]

/-- C5: decoding one PHCRID record consumes exactly 16 header bytes plus
one liquid and one gas CRIDHYP block sized by bits 0x10000 and 0x20000 of
the id word (36 bytes when set, 4 when clear), and the combined llik
PIDVEC equals norm in each component, plus the liquid log-likelihoods
componentwise when bit 0x10000 is set, plus the gas log-likelihoods
componentwise when bit 0x20000 is set.  The external VAX float conversion
is modelled exactly in ℚ by vaxToQ. -/
theorem phcrid_spec (b : DataBuffer)
    (hbound : b.offset + (16 +
        (if (le32 b.data b.offset &&& 0x10000 != 0 : Bool) then 36 else 4) +
        (if (le32 b.data b.offset &&& 0x20000 != 0 : Bool) then 36 else 4)) ≤
      b.data.length) :
    ∃ rec b1,
      phcridParse b 1 = (.ok [rec], b1) ∧
      b1.offset = b.offset + (16 +
        (if (le32 b.data b.offset &&& 0x10000 != 0 : Bool) then 36 else 4) +
        (if (le32 b.data b.offset &&& 0x20000 != 0 : Bool) then 36 else 4)) ∧
      rec.llik = ⟨vaxToQ (le32 b.data (b.offset + 4)) +
          (if (le32 b.data b.offset &&& 0x10000 != 0 : Bool) then
            vaxToQ (le32 b.data (b.offset + 16 + 0)) else 0) +
          (if (le32 b.data b.offset &&& 0x20000 != 0 : Bool) then
            vaxToQ (le32 b.data (b.offset + 16 +
              (if (le32 b.data b.offset &&& 0x10000 != 0 : Bool) then 36 else 4) + 0))
          else 0),
        vaxToQ (le32 b.data (b.offset + 4)) +
          (if (le32 b.data b.offset &&& 0x10000 != 0 : Bool) then
            vaxToQ (le32 b.data (b.offset + 16 + 4)) else 0) +
          (if (le32 b.data b.offset &&& 0x20000 != 0 : Bool) then
            vaxToQ (le32 b.data (b.offset + 16 +
              (if (le32 b.data b.offset &&& 0x10000 != 0 : Bool) then 36 else 4) + 4))
          else 0),
        vaxToQ (le32 b.data (b.offset + 4)) +
          (if (le32 b.data b.offset &&& 0x10000 != 0 : Bool) then
            vaxToQ (le32 b.data (b.offset + 16 + 8)) else 0) +
          (if (le32 b.data b.offset &&& 0x20000 != 0 : Bool) then
            vaxToQ (le32 b.data (b.offset + 16 +
              (if (le32 b.data b.offset &&& 0x10000 != 0 : Bool) then 36 else 4) + 8))
          else 0),
        vaxToQ (le32 b.data (b.offset + 4)) +
          (if (le32 b.data b.offset &&& 0x10000 != 0 : Bool) then
            vaxToQ (le32 b.data (b.offset + 16 + 12)) else 0) +
          (if (le32 b.data b.offset &&& 0x20000 != 0 : Bool) then
            vaxToQ (le32 b.data (b.offset + 16 +
              (if (le32 b.data b.offset &&& 0x10000 != 0 : Bool) then 36 else 4) + 12))
          else 0),
        vaxToQ (le32 b.data (b.offset + 4)) +
          (if (le32 b.data b.offset &&& 0x10000 != 0 : Bool) then
            vaxToQ (le32 b.data (b.offset + 16 + 16)) else 0) +
          (if (le32 b.data b.offset &&& 0x20000 != 0 : Bool) then
            vaxToQ (le32 b.data (b.offset + 16 +
              (if (le32 b.data b.offset &&& 0x10000 != 0 : Bool) then 36 else 4) + 16))
          else 0)⟩ := by
  have h1 : phcridParse b 1 = (match phcridParseRecord b with
      | (.error e, b1) => ((.error e : Except JErr (List CridRecord)), b1)
      | (.ok r, b1) => (.ok [r], b1)) := rfl
  have hidW : le32 ((b.data.drop b.offset).take 16) 0 = le32 b.data b.offset := by
    rw [le32_slice b.data b.offset 16 0 (by omega), Nat.add_zero]
  have hnorm : le32 ((b.data.drop b.offset).take 16) 4 =
      le32 b.data (b.offset + 4) :=
    le32_slice b.data b.offset 16 4 (by omega)
  cases hliq : (le32 b.data b.offset &&& 0x10000 != 0 : Bool) <;>
    cases hgas : (le32 b.data b.offset &&& 0x20000 != 0 : Bool)
  · have hb' : b.offset + 24 ≤ b.data.length := by simpa [hliq, hgas] using hbound
    have hrem : ¬ b.remaining < 16 := by
      simp only [DataBuffer.remaining]
      omega
    simp only [phcridParseRecord, DataBuffer.read] at h1
    rw [if_neg hrem] at h1
    simp only [hidW, hnorm, hliq, hgas] at h1
    rw [parseCridhyp_short _ (by dsimp only; omega)] at h1
    dsimp only at h1
    rw [parseCridhyp_short _ (by dsimp only; omega)] at h1
    dsimp only at h1
    refine ⟨_, _, h1, ?_, ?_⟩
    · simp only [hliq, hgas, Bool.false_eq_true, eq_self_iff_true, if_false,
        if_true]
    · simp only [hliq, hgas, combinePidvec]
      simp
  · have hb' : b.offset + 56 ≤ b.data.length := by simpa [hliq, hgas] using hbound
    have hrem : ¬ b.remaining < 16 := by
      simp only [DataBuffer.remaining]
      omega
    simp only [phcridParseRecord, DataBuffer.read] at h1
    rw [if_neg hrem] at h1
    simp only [hidW, hnorm, hliq, hgas] at h1
    rw [parseCridhyp_short _ (by dsimp only; omega)] at h1
    dsimp only at h1
    rw [parseCridhyp_full _ (by dsimp only; omega)] at h1
    dsimp only at h1
    refine ⟨_, _, h1, ?_, ?_⟩
    · simp only [hliq, hgas, Bool.false_eq_true, eq_self_iff_true, if_false,
        if_true]
    · simp only [hliq, hgas, combinePidvec]
      simp
  · have hb' : b.offset + 56 ≤ b.data.length := by simpa [hliq, hgas] using hbound
    have hrem : ¬ b.remaining < 16 := by
      simp only [DataBuffer.remaining]
      omega
    simp only [phcridParseRecord, DataBuffer.read] at h1
    rw [if_neg hrem] at h1
    simp only [hidW, hnorm, hliq, hgas] at h1
    rw [parseCridhyp_full _ (by dsimp only; omega)] at h1
    dsimp only at h1
    rw [parseCridhyp_short _ (by dsimp only; omega)] at h1
    dsimp only at h1
    refine ⟨_, _, h1, ?_, ?_⟩
    · simp only [hliq, hgas, Bool.false_eq_true, eq_self_iff_true, if_false,
        if_true]
    · simp only [hliq, hgas, combinePidvec]
      simp
  · have hb' : b.offset + 88 ≤ b.data.length := by simpa [hliq, hgas] using hbound
    have hrem : ¬ b.remaining < 16 := by
      simp only [DataBuffer.remaining]
      omega
    simp only [phcridParseRecord, DataBuffer.read] at h1
    rw [if_neg hrem] at h1
    simp only [hidW, hnorm, hliq, hgas] at h1
    rw [parseCridhyp_full _ (by dsimp only; omega)] at h1
    dsimp only at h1
    rw [parseCridhyp_full _ (by dsimp only; omega)] at h1
    dsimp only at h1
    refine ⟨_, _, h1, ?_, ?_⟩
    · simp only [hliq, hgas, Bool.false_eq_true, eq_self_iff_true, if_false,
        if_true]
    · simp only [hliq, hgas, combinePidvec]
      simp

/-- Concrete PHCRID record bytes for the C5 witness: id word 0x10000
(liquid CRIDHYP present, gas absent), norm word 0x4080 (VAX value 1), a
full 36-byte liquid block whose five log-likelihood words are all 0x4080,
and a 4-byte gas block. -/
def cridBytes : List Nat :=
  [0, 0, 1, 0, 128, 64, 0, 0, 0, 0, 0, 0, 0, 0, 0, 0,
   128, 64, 0, 0, 128, 64, 0, 0, 128, 64, 0, 0, 128, 64, 0, 0, 128, 64, 0, 0,
   0, 0, 0, 0, 0, 0, 0, 0, 0, 0, 0, 0, 0, 0, 0, 0,
   0, 0, 0, 0]

/-- C5 witness: decoding the concrete 56-byte PHCRID record of cridBytes
consumes 16 + 36 + 4 bytes and combines norm with the liquid
log-likelihoods. -/
theorem phcrid_spec_witness :
    ∃ rec b1,
      phcridParse ⟨cridBytes, 0⟩ 1 = (.ok [rec], b1) ∧
      b1.offset = 0 + (16 +
        (if (le32 cridBytes 0 &&& 0x10000 != 0 : Bool) then 36 else 4) +
        (if (le32 cridBytes 0 &&& 0x20000 != 0 : Bool) then 36 else 4)) ∧
      rec.llik = ⟨vaxToQ (le32 cridBytes (0 + 4)) +
          (if (le32 cridBytes 0 &&& 0x10000 != 0 : Bool) then
            vaxToQ (le32 cridBytes (0 + 16 + 0)) else 0) +
          (if (le32 cridBytes 0 &&& 0x20000 != 0 : Bool) then
            vaxToQ (le32 cridBytes (0 + 16 +
              (if (le32 cridBytes 0 &&& 0x10000 != 0 : Bool) then 36 else 4) + 0))
          else 0),
        vaxToQ (le32 cridBytes (0 + 4)) +
          (if (le32 cridBytes 0 &&& 0x10000 != 0 : Bool) then
            vaxToQ (le32 cridBytes (0 + 16 + 4)) else 0) +
          (if (le32 cridBytes 0 &&& 0x20000 != 0 : Bool) then
            vaxToQ (le32 cridBytes (0 + 16 +
              (if (le32 cridBytes 0 &&& 0x10000 != 0 : Bool) then 36 else 4) + 4))
          else 0),
        vaxToQ (le32 cridBytes (0 + 4)) +
          (if (le32 cridBytes 0 &&& 0x10000 != 0 : Bool) then
            vaxToQ (le32 cridBytes (0 + 16 + 8)) else 0) +
          (if (le32 cridBytes 0 &&& 0x20000 != 0 : Bool) then
            vaxToQ (le32 cridBytes (0 + 16 +
              (if (le32 cridBytes 0 &&& 0x10000 != 0 : Bool) then 36 else 4) + 8))
          else 0),
        vaxToQ (le32 cridBytes (0 + 4)) +
          (if (le32 cridBytes 0 &&& 0x10000 != 0 : Bool) then
            vaxToQ (le32 cridBytes (0 + 16 + 12)) else 0) +
          (if (le32 cridBytes 0 &&& 0x20000 != 0 : Bool) then
            vaxToQ (le32 cridBytes (0 + 16 +
              (if (le32 cridBytes 0 &&& 0x10000 != 0 : Bool) then 36 else 4) + 12))
          else 0),
        vaxToQ (le32 cridBytes (0 + 4)) +
          (if (le32 cridBytes 0 &&& 0x10000 != 0 : Bool) then
            vaxToQ (le32 cridBytes (0 + 16 + 16)) else 0) +
          (if (le32 cridBytes 0 &&& 0x20000 != 0 : Bool) then
            vaxToQ (le32 cridBytes (0 + 16 +
              (if (le32 cridBytes 0 &&& 0x10000 != 0 : Bool) then 36 else 4) + 16))
          else 0)⟩ :=
  phcrid_spec ⟨cridBytes, 0⟩ (by decide)

/-- PhysicalRecordInputStream.read from the top-level
src/physical_stream.py, the class hierarchy the assembler scripts import:
a bounded read that refuses to cross the record boundary with ValueError
and raises EOFError when the underlying file ends early. -/
def readB (st : St) (size : Nat) : Except JErr (List Nat × St) :=
  if st.reclen < st.n_bytes + size then .error .valueError
  else
    let data := fileRead st size
    if data.length < size then .error .eof
    else .ok (data,
      { st with
          pos := st.pos + size
          n_bytes := st.n_bytes + size })

/-- Little-endian unsigned 64-bit value at byte index i of a byte list. -/
def le64 (l : List Nat) (i : Nat) : Nat :=
  le32 l i + 4294967296 * le32 l (i + 4)

/-- Reinterpretation of a 64-bit unsigned value as two's-complement, as
struct.unpack of a signed 8-byte format performs. -/
def toInt64 (v : Nat) : Int :=
  if v < 9223372036854775808 then (v : Int) else (v : Int) - 18446744073709551616

/-- JazelleInputStream.read_int on the bounded reader: 4 bytes decoded as
a signed little-endian 32-bit integer.  The length recheck of read_integer
is omitted because readB already guarantees exactly size bytes. -/
def readIntB (st : St) : Except JErr (Int × St) :=
  match readB st 4 with
  | .error e => .error e
  | .ok (data, st1) => .ok (toInt32 (le32 data 0), st1)

/-- JazelleInputStream.read_long on the bounded reader: 8 bytes decoded as
a signed little-endian 64-bit integer. -/
def readLongB (st : St) : Except JErr (Int × St) :=
  match readB st 8 with
  | .error e => .error e
  | .ok (v, st1) => .ok (toInt64 (le64 v 0), st1)

/-- JazelleInputStream.read_date up to the epoch-adjusted millisecond
count: floor-divide the raw long by 10000 and subtract
JAVA_EPOCH_OFFSET = 3506716800730.  The final
datetime.utcfromtimestamp(value / 1000) converts through a double and is
not modelled. -/
def readDateB (st : St) : Except JErr (Int × St) :=
  match readLongB st with
  | .error e => .error e
  | .ok (v, st1) => .ok (v.fdiv 10000 - 3506716800730, st1)

/-- JazelleInputStream.read_float on the bounded reader, kept at the level
of the IEEE bit pattern computed by readFloatBits (a zero word short
circuits to 0.0, whose bit pattern readFloatBits also returns). -/
def readFloatB (st : St) : Except JErr (Nat × St) :=
  match readB st 4 with
  | .error e => .error e
  | .ok (data, st1) => .ok (readFloatBits (le32 data 0), st1)

/-- bytes.decode with the ascii codec and errors replace: a byte below 128
decodes to itself, every other byte becomes U+FFFD. -/
def pyReplace (b : Nat) : Nat := if b < 128 then b else 0xFFFD

/-- Code points stripped by str.rstrip among those pyReplace can
produce. -/
def pyIsSpace (c : Nat) : Bool :=
  decide (c = 9 ∨ c = 10 ∨ c = 11 ∨ c = 12 ∨ c = 13 ∨ c = 28 ∨ c = 29 ∨
    c = 30 ∨ c = 31 ∨ c = 32)

/-- data.decode of ascii with errors replace followed by rstrip, as a list
of code points. -/
def pyDecodeTrim (l : List Nat) : List Nat :=
  ((l.map pyReplace).reverse.dropWhile pyIsSpace).reverse

/-- JazelleInputStream.read_string on the bounded reader. -/
def readStringB (st : St) (size : Nat) : Except JErr (List Nat × St) :=
  match readB st size with
  | .error e => .error e
  | .ok (data, st1) =>
    if data.length < size then .error .eof
    else .ok (pyDecodeTrim data, st1)

/-- Code points of the bank name IJEVHD. -/
def strIJEVHD : List Nat := [73, 74, 69, 86, 72, 68]

/-- Code points of the format name MINIDST. -/
def strMINIDST : List Nat := [77, 73, 78, 73, 68, 83, 84]

/-- The 23-field logical record header dictionary read by the assembler
scripts src/convert_minidst.py and src/inspect.py. -/
structure RecHeader where
  recno : Int
  t1 : Int
  t2 : Int
  target : Int
  rectype : List Nat
  p1 : Int
  p2 : Int
  format : List Nat
  context : List Nat
  tocrec : Int
  datrec : Int
  tocsiz : Int
  datsiz : Int
  tocoff1 : Int
  tocoff2 : Int
  tocoff3 : Int
  datoff : Int
  segname : List Nat
  usrnam : List Nat
  usroff : Int
  lrecflgs : Int
  spare1 : Int
  spare2 : Int
deriving DecidableEq

/-- The record dictionary literal of the assembler scripts: 18 read_int
and 5 read_string(8) calls in source order. -/
def parseRecordHeader (st : St) : Except JErr (RecHeader × St) := do
  let (recno, st) ← readIntB st
  let (t1, st) ← readIntB st
  let (t2, st) ← readIntB st
  let (target, st) ← readIntB st
  let (rectype, st) ← readStringB st 8
  let (p1, st) ← readIntB st
  let (p2, st) ← readIntB st
  let (fmt, st) ← readStringB st 8
  let (ctx, st) ← readStringB st 8
  let (tocrec, st) ← readIntB st
  let (datrec, st) ← readIntB st
  let (tocsiz, st) ← readIntB st
  let (datsiz, st) ← readIntB st
  let (tocoff1, st) ← readIntB st
  let (tocoff2, st) ← readIntB st
  let (tocoff3, st) ← readIntB st
  let (datoff, st) ← readIntB st
  let (segname, st) ← readStringB st 8
  let (usrnam, st) ← readStringB st 8
  let (usroff, st) ← readIntB st
  let (lrecflgs, st) ← readIntB st
  let (spare1, st) ← readIntB st
  let (spare2, st) ← readIntB st
  pure (⟨recno, t1, t2, target, rectype, p1, p2, fmt, ctx, tocrec, datrec,
    tocsiz, datsiz, tocoff1, tocoff2, tocoff3, datoff, segname, usrnam,
    usroff, lrecflgs, spare1, spare2⟩, st)

/-- The event_info dictionary read after a successful usroff check. -/
structure EventInfo where
  header : Int
  run : Int
  event : Int
  time : Int
  weight : Nat
  type : Int
  trigger : Int
deriving DecidableEq

/-- The event_info dictionary literal: three ints, a date, a float and two
more ints. -/
def parseEventHeader (st : St) : Except JErr (EventInfo × St) := do
  let (header, st) ← readIntB st
  let (run, st) ← readIntB st
  let (event, st) ← readIntB st
  let (time, st) ← readDateB st
  let (weight, st) ← readFloatB st
  let (ty, st) ← readIntB st
  let (trig, st) ← readIntB st
  pure (⟨header, run, event, time, weight, ty, trig⟩, st)

/-- The phmtoc table of contents read by the assembler scripts: one float
followed by 17 ints. -/
structure Phmtoc where
  Version : Nat
  NMcPart : Int
  NPhPSum : Int
  NPhChrg : Int
  NPhKlus : Int
  NPhKTrk : Int
  NPhWic : Int
  NPhWMC : Int
  NPhCrid : Int
  NPhPoint : Int
  NMCPnt : Int
  NPhKMC1 : Int
  NPhKChrg : Int
  NPhBm : Int
  NPhEvCl : Int
  NMCBeam : Int
  NPhKEl_id : Int
  NPhVxOv : Int
deriving DecidableEq

/-- The phmtoc dictionary literal of the assembler scripts. -/
def parsePhmtoc (st : St) : Except JErr (Phmtoc × St) := do
  let (ver, st) ← readFloatB st
  let (a1, st) ← readIntB st
  let (a2, st) ← readIntB st
  let (a3, st) ← readIntB st
  let (a4, st) ← readIntB st
  let (a5, st) ← readIntB st
  let (a6, st) ← readIntB st
  let (a7, st) ← readIntB st
  let (a8, st) ← readIntB st
  let (a9, st) ← readIntB st
  let (a10, st) ← readIntB st
  let (a11, st) ← readIntB st
  let (a12, st) ← readIntB st
  let (a13, st) ← readIntB st
  let (a14, st) ← readIntB st
  let (a15, st) ← readIntB st
  let (a16, st) ← readIntB st
  let (a17, st) ← readIntB st
  pure (⟨ver, a1, a2, a3, a4, a5, a6, a7, a8, a9, a10, a11, a12, a13, a14,
    a15, a16, a17⟩, st)

/-- The IJEVHD section of the assembler loop: when the record names the
IJEVHD user bank, the cursor (get_n_bytes, defined in
src/stream/physical_stream.py as returning n_bytes) is compared to usroff
and ValueError Inconsistent usroff is raised on mismatch; on a match the
event header is read. -/
def checkIjevhd (hdr : RecHeader) (st : St) : Except JErr St :=
  if hdr.usrnam = strIJEVHD then
    if (st.n_bytes : Int) ≠ hdr.usroff then .error .offsetMismatch
    else
      match parseEventHeader st with
      | .error e => .error e
      | .ok (_, st1) => .ok st1
  else .ok st

/-- The optional physical-record advance before the datoff check. -/
def advanceDat (datrec : Int) (st : St) : Except JErr St :=
  if 0 < datrec then nextPhysicalL st else .ok st

/-- One iteration of the PHPSUM loop of the assembler scripts: an int,
seven floats and an int. -/
def phpsumOne (st : St) : Except JErr St := do
  let (_, st) ← readIntB st
  let (_, st) ← readFloatB st
  let (_, st) ← readFloatB st
  let (_, st) ← readFloatB st
  let (_, st) ← readFloatB st
  let (_, st) ← readFloatB st
  let (_, st) ← readFloatB st
  let (_, st) ← readFloatB st
  let (_, st) ← readIntB st
  pure st

/-- The PHPSUM for-loop over range NPhPSum. -/
def phpsumLoop : Nat → St → Except JErr St
  | 0, st => .ok st
  | n + 1, st =>
    match phpsumOne st with
    | .error e => .error e
    | .ok st1 => phpsumLoop n st1

/-- The body of one assembler loop iteration after next_logical_record:
the 23-field header, the IJEVHD section with the usroff check, and for a
MINIDST record the tocoff1 check, the phmtoc, the optional physical
advance, the datoff check, the 20-byte MCHEAD skip, the NMcPart assertion
and the PHPSUM loop.  The three Inconsistent-offset ValueErrors are the
offsetMismatch error. -/
def processBody (st1 : St) : Except JErr St :=
  match parseRecordHeader st1 with
  | .error e => .error e
  | .ok (hdr, st2) =>
    match checkIjevhd hdr st2 with
    | .error e => .error e
    | .ok st3 =>
      if hdr.format = strMINIDST then
        if (st3.n_bytes : Int) ≠ hdr.tocoff1 then .error .offsetMismatch
        else
          match parsePhmtoc st3 with
          | .error e => .error e
          | .ok (toc, st4) =>
            match advanceDat hdr.datrec st4 with
            | .error e => .error e
            | .ok st5 =>
              if (st5.n_bytes : Int) ≠ hdr.datoff then .error .offsetMismatch
              else
                match readB st5 20 with
                | .error e => .error e
                | .ok (_, st6) =>
                  if toc.NMcPart ≠ 0 then .error .assertFail
                  else
                    match phpsumLoop toc.NPhPSum.toNat st6 with
                    | .error e => .error e
                    | .ok st7 => .ok st7
      else .ok st3

theorem except_bind_kind {α β : Type} {f : Except JErr α}
    {g : α → Except JErr β} {P : JErr → Prop}
    (hf : ∀ e, f = .error e → P e)
    (hg : ∀ a e, g a = .error e → P e) :
    ∀ e, f >>= g = .error e → P e := by
  intro e h
  cases hf2 : f with
  | error e2 =>
    rw [hf2] at h
    have h3 : (Except.error e2 : Except JErr α) >>= g = .error e2 := rfl
    rw [h3] at h
    injection h with h4
    subst h4
    exact hf _ hf2
  | ok a =>
    rw [hf2] at h
    have h3 : (Except.ok a : Except JErr α) >>= g = g a := rfl
    rw [h3] at h
    exact hg a e h

theorem readB_nm (st : St) (n : Nat) (e : JErr) (h : readB st n = .error e) :
    e ≠ .offsetMismatch := by
  simp only [readB] at h
  by_cases h1 : st.reclen < st.n_bytes + n
  · rw [if_pos h1] at h
    injection h with h2
    subst h2
    decide
  · rw [if_neg h1] at h
    by_cases h2 : (fileRead st n).length < n
    · rw [if_pos h2] at h
      injection h with h3
      subst h3
      decide
    · rw [if_neg h2] at h
      exact Except.noConfusion h

theorem readIntB_nm (st : St) (e : JErr) (h : readIntB st = .error e) :
    e ≠ .offsetMismatch := by
  unfold readIntB at h
  cases h1 : readB st 4 with
  | error e1 =>
    rw [h1] at h
    dsimp only at h
    injection h with h2
    subst h2
    exact readB_nm st 4 _ h1
  | ok p =>
    obtain ⟨d, st1⟩ := p
    rw [h1] at h
    dsimp only at h
    exact Except.noConfusion h

theorem readLongB_nm (st : St) (e : JErr) (h : readLongB st = .error e) :
    e ≠ .offsetMismatch := by
  unfold readLongB at h
  cases h1 : readB st 8 with
  | error e1 =>
    rw [h1] at h
    dsimp only at h
    injection h with h2
    subst h2
    exact readB_nm st 8 _ h1
  | ok p =>
    obtain ⟨d, st1⟩ := p
    rw [h1] at h
    dsimp only at h
    exact Except.noConfusion h

theorem readDateB_nm (st : St) (e : JErr) (h : readDateB st = .error e) :
    e ≠ .offsetMismatch := by
  unfold readDateB at h
  cases h1 : readLongB st with
  | error e1 =>
    rw [h1] at h
    dsimp only at h
    injection h with h2
    subst h2
    exact readLongB_nm st _ h1
  | ok p =>
    obtain ⟨v, st1⟩ := p
    rw [h1] at h
    dsimp only at h
    exact Except.noConfusion h

theorem readFloatB_nm (st : St) (e : JErr) (h : readFloatB st = .error e) :
    e ≠ .offsetMismatch := by
  unfold readFloatB at h
  cases h1 : readB st 4 with
  | error e1 =>
    rw [h1] at h
    dsimp only at h
    injection h with h2
    subst h2
    exact readB_nm st 4 _ h1
  | ok p =>
    obtain ⟨d, st1⟩ := p
    rw [h1] at h
    dsimp only at h
    exact Except.noConfusion h

theorem parseEventHeader_nm (st : St) (e : JErr)
    (h : parseEventHeader st = .error e) : e ≠ .offsetMismatch := by
  unfold parseEventHeader at h
  refine except_bind_kind (readIntB_nm st) ?_ e h
  rintro ⟨v1, s1⟩ e h
  refine except_bind_kind (readIntB_nm s1) ?_ e h
  rintro ⟨v2, s2⟩ e h
  refine except_bind_kind (readIntB_nm s2) ?_ e h
  rintro ⟨v3, s3⟩ e h
  refine except_bind_kind (readDateB_nm s3) ?_ e h
  rintro ⟨v4, s4⟩ e h
  refine except_bind_kind (readFloatB_nm s4) ?_ e h
  rintro ⟨v5, s5⟩ e h
  refine except_bind_kind (readIntB_nm s5) ?_ e h
  rintro ⟨v6, s6⟩ e h
  refine except_bind_kind (readIntB_nm s6) ?_ e h
  rintro ⟨v7, s7⟩ e h
  exact Except.noConfusion h

theorem parsePhmtoc_nm (st : St) (e : JErr)
    (h : parsePhmtoc st = .error e) : e ≠ .offsetMismatch := by
  unfold parsePhmtoc at h
  refine except_bind_kind (readFloatB_nm st) ?_ e h
  rintro ⟨v0, s0⟩ e h
  refine except_bind_kind (readIntB_nm s0) ?_ e h
  rintro ⟨v1, s1⟩ e h
  refine except_bind_kind (readIntB_nm s1) ?_ e h
  rintro ⟨v2, s2⟩ e h
  refine except_bind_kind (readIntB_nm s2) ?_ e h
  rintro ⟨v3, s3⟩ e h
  refine except_bind_kind (readIntB_nm s3) ?_ e h
  rintro ⟨v4, s4⟩ e h
  refine except_bind_kind (readIntB_nm s4) ?_ e h
  rintro ⟨v5, s5⟩ e h
  refine except_bind_kind (readIntB_nm s5) ?_ e h
  rintro ⟨v6, s6⟩ e h
  refine except_bind_kind (readIntB_nm s6) ?_ e h
  rintro ⟨v7, s7⟩ e h
  refine except_bind_kind (readIntB_nm s7) ?_ e h
  rintro ⟨v8, s8⟩ e h
  refine except_bind_kind (readIntB_nm s8) ?_ e h
  rintro ⟨v9, s9⟩ e h
  refine except_bind_kind (readIntB_nm s9) ?_ e h
  rintro ⟨v10, s10⟩ e h
  refine except_bind_kind (readIntB_nm s10) ?_ e h
  rintro ⟨v11, s11⟩ e h
  refine except_bind_kind (readIntB_nm s11) ?_ e h
  rintro ⟨v12, s12⟩ e h
  refine except_bind_kind (readIntB_nm s12) ?_ e h
  rintro ⟨v13, s13⟩ e h
  refine except_bind_kind (readIntB_nm s13) ?_ e h
  rintro ⟨v14, s14⟩ e h
  refine except_bind_kind (readIntB_nm s14) ?_ e h
  rintro ⟨v15, s15⟩ e h
  refine except_bind_kind (readIntB_nm s15) ?_ e h
  rintro ⟨v16, s16⟩ e h
  refine except_bind_kind (readIntB_nm s16) ?_ e h
  rintro ⟨v17, s17⟩ e h
  exact Except.noConfusion h

theorem readHeaderL_nm (st : St) (e : JErr) (h : readHeaderL st = .error e) :
    e ≠ .offsetMismatch := by
  unfold readHeaderL at h
  cases h1 : readHeaderP st with
  | error e1 =>
    rw [h1] at h
    dsimp only at h
    injection h with h2
    subst h2
    have h3 := readHeaderP_error _ _ h1
    subst h3
    decide
  | ok st1 =>
    rw [h1] at h
    dsimp only at h
    cases h2 : readShort st1 with
    | error e2 =>
      rw [h2] at h
      dsimp only at h
      injection h with h3
      subst h3
      have h4 := readShort_error _ _ h2
      subst h4
      decide
    | ok p2 =>
      obtain ⟨lrlen, st2⟩ := p2
      rw [h2] at h
      dsimp only at h
      cases h3 : readShort st2 with
      | error e3 =>
        rw [h3] at h
        dsimp only at h
        injection h with h4
        subst h4
        have h5 := readShort_error _ _ h3
        subst h5
        decide
      | ok p3 =>
        obtain ⟨lrcnt, st3⟩ := p3
        rw [h3] at h
        dsimp only at h
        by_cases hs1 : lrcnt &&& 0xFFFFFFFC ≠ 0
        · rw [if_pos hs1] at h
          injection h with h4
          subst h4
          decide
        · rw [if_neg hs1] at h
          by_cases hs2 : (decide (lrcnt &&& 2 ≠ 0) : Bool) ≠ st3.to_be_continued
          · rw [if_pos hs2] at h
            injection h with h4
            subst h4
            decide
          · rw [if_neg hs2] at h
            exact Except.noConfusion h

theorem nextPhysicalL_nm (st : St) (e : JErr)
    (h : nextPhysicalL st = .error e) : e ≠ .offsetMismatch := by
  unfold nextPhysicalL at h
  exact readHeaderL_nm _ _ h

theorem advanceDat_nm (d : Int) (st : St) (e : JErr)
    (h : advanceDat d st = .error e) : e ≠ .offsetMismatch := by
  unfold advanceDat at h
  by_cases h1 : (0 : Int) < d
  · rw [if_pos h1] at h
    exact nextPhysicalL_nm _ _ h
  · rw [if_neg h1] at h
    exact Except.noConfusion h

theorem phpsumOne_nm (st : St) (e : JErr) (h : phpsumOne st = .error e) :
    e ≠ .offsetMismatch := by
  unfold phpsumOne at h
  refine except_bind_kind (readIntB_nm st) ?_ e h
  rintro ⟨v1, s1⟩ e h
  refine except_bind_kind (readFloatB_nm s1) ?_ e h
  rintro ⟨v2, s2⟩ e h
  refine except_bind_kind (readFloatB_nm s2) ?_ e h
  rintro ⟨v3, s3⟩ e h
  refine except_bind_kind (readFloatB_nm s3) ?_ e h
  rintro ⟨v4, s4⟩ e h
  refine except_bind_kind (readFloatB_nm s4) ?_ e h
  rintro ⟨v5, s5⟩ e h
  refine except_bind_kind (readFloatB_nm s5) ?_ e h
  rintro ⟨v6, s6⟩ e h
  refine except_bind_kind (readFloatB_nm s6) ?_ e h
  rintro ⟨v7, s7⟩ e h
  refine except_bind_kind (readFloatB_nm s7) ?_ e h
  rintro ⟨v8, s8⟩ e h
  refine except_bind_kind (readIntB_nm s8) ?_ e h
  rintro ⟨v9, s9⟩ e h
  exact Except.noConfusion h

theorem phpsumLoop_nm : ∀ (n : Nat) (st : St) (e : JErr),
    phpsumLoop n st = .error e → e ≠ .offsetMismatch := by
  intro n
  induction n with
  | zero =>
    intro st e h
    exact Except.noConfusion h
  | succ n ih =>
    intro st e h
    unfold phpsumLoop at h
    cases h1 : phpsumOne st with
    | error e1 =>
      rw [h1] at h
      dsimp only at h
      injection h with h2
      subst h2
      exact phpsumOne_nm _ _ h1
    | ok st1 =>
      rw [h1] at h
      dsimp only at h
      exact ih st1 e h

theorem checkIjevhd_mm (hdr : RecHeader) (st : St)
    (h : checkIjevhd hdr st = .error .offsetMismatch) :
    hdr.usrnam = strIJEVHD ∧ (st.n_bytes : Int) ≠ hdr.usroff := by
  unfold checkIjevhd at h
  by_cases h1 : hdr.usrnam = strIJEVHD
  · rw [if_pos h1] at h
    by_cases h2 : (st.n_bytes : Int) ≠ hdr.usroff
    · exact ⟨h1, h2⟩
    · rw [if_neg h2] at h
      cases h3 : parseEventHeader st with
      | error e1 =>
        rw [h3] at h
        dsimp only at h
        injection h with h4
        subst h4
        exact absurd rfl (parseEventHeader_nm st _ h3)
      | ok p =>
        obtain ⟨info, st1⟩ := p
        rw [h3] at h
        dsimp only at h
        exact Except.noConfusion h
  · rw [if_neg h1] at h
    exact Except.noConfusion h

/-- C6: whenever the assembler scripts meet an IJEVHD record whose usroff,
or a MINIDST record whose tocoff1, or (after optionally advancing one
physical record when datrec is positive) whose datoff differs from the
current in-record cursor, processing of that record fails with the
Inconsistent-offset ValueError (offsetMismatch) before any bank read of
that record, and offsetMismatch arises only from those three cursor
checks: when each reached check's cursor matches, the record is processed
with no error from that check. -/
theorem offset_check_spec (st1 : St) (hdr : RecHeader) (st2 : St)
    (hhdr : parseRecordHeader st1 = .ok (hdr, st2)) :
    (hdr.usrnam = strIJEVHD → (st2.n_bytes : Int) ≠ hdr.usroff →
      processBody st1 = .error .offsetMismatch) ∧
    (∀ st3, checkIjevhd hdr st2 = .ok st3 →
      hdr.format = strMINIDST → (st3.n_bytes : Int) ≠ hdr.tocoff1 →
      processBody st1 = .error .offsetMismatch) ∧
    (∀ st3 toc st4 st5, checkIjevhd hdr st2 = .ok st3 →
      hdr.format = strMINIDST → (st3.n_bytes : Int) = hdr.tocoff1 →
      parsePhmtoc st3 = .ok (toc, st4) →
      advanceDat hdr.datrec st4 = .ok st5 →
      (st5.n_bytes : Int) ≠ hdr.datoff →
      processBody st1 = .error .offsetMismatch) ∧
    (processBody st1 = .error .offsetMismatch →
      (hdr.usrnam = strIJEVHD ∧ (st2.n_bytes : Int) ≠ hdr.usroff) ∨
      (∃ st3, checkIjevhd hdr st2 = .ok st3 ∧ hdr.format = strMINIDST ∧
        ((st3.n_bytes : Int) ≠ hdr.tocoff1 ∨
          (∃ toc st4 st5, parsePhmtoc st3 = .ok (toc, st4) ∧
            advanceDat hdr.datrec st4 = .ok st5 ∧
            (st5.n_bytes : Int) ≠ hdr.datoff)))) := by
  refine ⟨?_, ?_, ?_, ?_⟩
  · intro h1 h2
    have hc : checkIjevhd hdr st2 = .error .offsetMismatch := by
      unfold checkIjevhd
      rw [if_pos h1, if_pos h2]
    unfold processBody
    rw [hhdr]
    dsimp only
    rw [hc]
  · intro st3 hc hf ht
    unfold processBody
    rw [hhdr]
    dsimp only
    rw [hc]
    dsimp only
    rw [if_pos hf, if_pos ht]
  · intro st3 toc st4 st5 hc hf ht hp ha hd
    unfold processBody
    rw [hhdr]
    dsimp only
    rw [hc]
    dsimp only
    rw [if_pos hf, if_neg (not_not_intro ht), hp]
    dsimp only
    rw [ha]
    dsimp only
    rw [if_pos hd]
  · intro h
    unfold processBody at h
    rw [hhdr] at h
    dsimp only at h
    cases hc : checkIjevhd hdr st2 with
    | error e1 =>
      rw [hc] at h
      dsimp only at h
      injection h with h2
      subst h2
      exact Or.inl (checkIjevhd_mm hdr st2 hc)
    | ok st3 =>
      rw [hc] at h
      dsimp only at h
      by_cases hf : hdr.format = strMINIDST
      · rw [if_pos hf] at h
        by_cases ht : (st3.n_bytes : Int) ≠ hdr.tocoff1
        · exact Or.inr ⟨st3, rfl, hf, Or.inl ht⟩
        · rw [if_neg ht] at h
          cases hp : parsePhmtoc st3 with
          | error e2 =>
            rw [hp] at h
            dsimp only at h
            injection h with h2
            subst h2
            exact absurd rfl (parsePhmtoc_nm _ _ hp)
          | ok p =>
            obtain ⟨toc, st4⟩ := p
            rw [hp] at h
            dsimp only at h
            cases ha : advanceDat hdr.datrec st4 with
            | error e3 =>
              rw [ha] at h
              dsimp only at h
              injection h with h2
              subst h2
              exact absurd rfl (advanceDat_nm _ _ _ ha)
            | ok st5 =>
              rw [ha] at h
              dsimp only at h
              by_cases hd : (st5.n_bytes : Int) ≠ hdr.datoff
              · exact Or.inr ⟨st3, rfl, hf, Or.inr ⟨toc, st4, st5, hp, ha, hd⟩⟩
              · rw [if_neg hd] at h
                cases hr : readB st5 20 with
                | error e4 =>
                  rw [hr] at h
                  dsimp only at h
                  injection h with h2
                  subst h2
                  exact absurd rfl (readB_nm _ _ _ hr)
                | ok p2 =>
                  obtain ⟨mchead, st6⟩ := p2
                  rw [hr] at h
                  dsimp only at h
                  by_cases hm : toc.NMcPart ≠ 0
                  · rw [if_pos hm] at h
                    injection h with h2
                    exact absurd h2 (by decide)
                  · rw [if_neg hm] at h
                    cases hl : phpsumLoop toc.NPhPSum.toNat st6 with
                    | error e5 =>
                      rw [hl] at h
                      dsimp only at h
                      injection h with h2
                      subst h2
                      exact absurd rfl (phpsumLoop_nm _ _ _ hl)
                    | ok st7 =>
                      rw [hl] at h
                      dsimp only at h
                      exact Except.noConfusion h
      · rw [if_neg hf] at h
        exact Except.noConfusion h

/-- A concrete 112-byte logical record payload whose usrnam field is
IJEVHD padded with blanks and whose usroff field is 0, disagreeing with
the 112-byte cursor after the header. -/
def ijevhdRecBytes : List Nat :=
  List.replicate 16 0 ++ List.replicate 8 32 ++ List.replicate 8 0 ++
  List.replicate 8 32 ++ List.replicate 8 32 ++ List.replicate 32 0 ++
  List.replicate 8 32 ++ [73, 74, 69, 86, 72, 68, 32, 32] ++
  List.replicate 4 0 ++ List.replicate 12 0

/-- C6 witness: on the concrete record of ijevhdRecBytes the usroff check
fails and processing stops with offsetMismatch. -/
theorem offset_check_spec_witness :
    processBody ⟨ijevhdRecBytes, 0, 0, 112, false⟩ = .error .offsetMismatch :=
  (offset_check_spec ⟨ijevhdRecBytes, 0, 0, 112, false⟩ _ _ rfl).1
    (by decide) (by decide)

/-- C2: PhysicalReader.read(n) (the boundary-crossing version of
src/stream/physical_stream.py) returns a byte string of length exactly n on
success, transparently consuming 4-byte physical headers at record
boundaries, and every failure it reports is the UnexpectedEof kind. -/
theorem physicalRead_spec (st : St) (n : Nat) :
    (∀ d st', readP st n = .ok (d, st') → d.length = n) ∧
    (∀ e, readP st n = .error e → e = .eof) := by
  constructor
  · intro d st' h
    exact readFuelP_length _ _ _ _ _ h
  · intro e h
    rcases readFuelP_error _ _ _ _ h with h1 | h1
    · exact h1
    · exfalso
      subst h1
      exact readFuelP_no_fuelOut (st.src.length + 1) st n (by omega) (by omega) h

/-- Witness for C2: a concrete two-byte read inside a six-byte record
succeeds and indeed returns exactly two bytes. -/
theorem physicalRead_spec_witness : ([1, 2] : List Nat).length = 2 :=
  (physicalRead_spec ⟨[6, 0, 0, 0, 1, 2], 4, 4, 6, false⟩ 2).1 [1, 2]
    ⟨[6, 0, 0, 0, 1, 2], 6, 6, 6, false⟩ (by decide)

end Jazelle
